import Mathlib

attribute [local semireducible] Rat.add Rat.sub Rat.mul Rat.inv

/-!
Shallow embedding of `process.py` (Hydro One bill processing).

The source reads Excel workbooks with `xlrd`, locates the bill layout inside
the sheet named "Invoice Summary" by searching for landmark labels, extracts a
rectangular region into a pandas DataFrame, concatenates the per-file frames,
derives per-day usage, filters excluded rows, drops configured columns and
writes one sheet per account.

Modelling conventions:
- Spreadsheet cell values are a tagged variant `Value`; machine floats are
  modelled as exact rationals plus the IEEE special values `nan`, `inf`,
  `neginf` (only the exactly-specified zero-denominator cases of IEEE
  division are relied on by any theorem).
- Python exceptions are the explicit error type `PyErr` threaded through
  `Except`.
- Dates are days as integers (`datetime.date` differences are whole days).
-/

/-- Dynamic value of a spreadsheet cell or DataFrame entry.
`num` covers Python ints and floats (exact rationals), `nan` is float NaN
(also standing for pandas NaT), `inf`, `neginf` the IEEE infinities,
`date` a `datetime.date` as days, `timedelta` a day-valued `timedelta`. -/
inductive Value where
  | str (s : String)
  | num (q : ℚ)
  | nan
  | inf
  | neginf
  | date (d : ℤ)
  | timedelta (d : ℤ)
deriving DecidableEq

/-- One xlrd cell: the raw value returned by `sheet.cell_value` together with
the xlrd type tag returned by `sheet.cell_type` (2 = XL_CELL_NUMBER,
1 = text, 3 = date serial, 0/6 = empty/blank). -/
structure Cell where
  val : Value
  ctype : Nat
deriving DecidableEq

/-- An xlrd worksheet: rows of cells.  `xlrd` (with the default
`ragged_rows=False`) pads every row to the same width, so well-formed sheets
have rows of equal length; the model keeps the raw row lists. -/
structure Sheet where
  cells : List (List Cell)
deriving DecidableEq

/-- `sheet.nrows` of xlrd. -/
def Sheet.nrows (s : Sheet) : Nat := s.cells.length

/-- Python exceptions raised by the program, one constructor per exception
kind that the source can raise. -/
inductive PyErr where
  | lookupError
  | valueError
  | indexError
  | xlrdError
  | keyError
  | typeError
  | parseError
deriving DecidableEq

/-- The cell value at (r, c), if both indices are in range. -/
def cellValOpt (s : Sheet) (r c : Nat) : Option Value :=
  (s.cells[r]?).bind (fun row => (row[c]?).map Cell.val)

/-- The xlrd cell type at (r, c), if both indices are in range; `none` models
the `IndexError` that `sheet.cell_type` raises out of range. -/
def cellTypeOpt (s : Sheet) (r c : Nat) : Option Nat :=
  (s.cells[r]?).bind (fun row => (row[c]?).map Cell.ctype)

/-- Column index of the first cell in one row whose value equals `val`
(the inner `for col in range(sheet.ncols)` loop of `find_in_sheet`). -/
def rowFindIdx (val : Value) (row : List Cell) : Option Nat :=
  row.findIdx? (fun cl => cl.val == val)

/-- Row-major scan over the rows, starting at row index `i`
(the outer `for row in range(sheet.nrows)` loop of `find_in_sheet`). -/
def findRows (val : Value) : List (List Cell) → Nat → Option (Nat × Nat)
  | [], _ => none
  | row :: rest, i =>
    match rowFindIdx val row with
    | some j => some (i, j)
    | none => findRows val rest (i + 1)

/-- `find_in_sheet(val, sheet)`: (row, col) of the first match searching
row 0, then row 1, etc.; `none` models the raised `LookupError`. -/
def find_in_sheet (val : Value) (s : Sheet) : Option (Nat × Nat) :=
  findRows val s.cells 0

/-- xlrd constant `XL_CELL_NUMBER`, named `XLS_FLOAT_TYPE` in the source. -/
def XLS_FLOAT_TYPE : Nat := 2

/-- The `while sheet.cell_type(row, col) == XLS_FLOAT_TYPE` walk of
`get_billing_lines`, with explicit fuel (the walk strictly advances `row`, so
`nrows + 1` fuel is always enough; running out of fuel or off the end of the
sheet is the `IndexError` that `sheet.cell_type` raises out of range). -/
def walkLines (s : Sheet) (c : Nat) : Nat → Nat → Nat → Except PyErr Nat
  | 0, _, _ => .error .indexError
  | fuel + 1, r, ln =>
    match cellTypeOpt s r c with
    | none => .error .indexError
    | some t => if t = XLS_FLOAT_TYPE then walkLines s c fuel (r + 1) (ln + 1) else .ok ln

/-- `get_billing_lines(sheet)`: find the "Line #" cell (raising `ValueError`
if absent), then walk down counting float-typed cells. -/
def get_billing_lines (s : Sheet) : Except PyErr Nat :=
  match find_in_sheet (.str "Line #") s with
  | none => .error .valueError
  | some (r, c) => walkLines s c (s.nrows + 1) (r + 1) 0

/-- Specification-side count: the number of contiguous cells of numeric type
in column `c` starting at row `r` and walking down (stopping at the first
non-numeric cell or at the end of the sheet). -/
def numRunBelow (s : Sheet) (c r : Nat) : Nat :=
  (((s.cells.drop r).map (fun row => (row[c]?).map Cell.ctype)).takeWhile
    (fun t => t == some XLS_FLOAT_TYPE)).length

/-! ### Bill Extractor: reading the invoice sheet into a DataFrame -/

/-- A workbook: named worksheets, as opened by `xlrd.open_workbook`. -/
abbrev Workbook := List (String × Sheet)

/-- `xl.sheet_by_name(name)`: raises `XLRDError` if the sheet is absent. -/
def sheet_by_name (wb : Workbook) (name : String) : Except PyErr Sheet :=
  match List.lookup name wb with
  | some s => .ok s
  | none => .error .xlrdError

/-- One DataFrame row: the index entry (account identifier) plus the data
cells, aligned with the frame's `colNames`. -/
structure DRow where
  idx : Value
  cells : List Value
deriving DecidableEq

/-- A pandas DataFrame with an index column: `indexName` names the index,
`colNames` the data columns, `rows` the data. -/
structure DF where
  indexName : String
  colNames : List String
  rows : List DRow
deriving DecidableEq

/-- Map an exception-raising function over a list, stopping at the first
error (the semantics of a Python loop or pandas columnwise application). -/
def mapE {α β : Type} (f : α → Except PyErr β) : List α → Except PyErr (List β)
  | [] => .ok []
  | a :: l =>
    match f a with
    | .error e => .error e
    | .ok b =>
      match mapE f l with
      | .error e => .error e
      | .ok bs => .ok (b :: bs)

/-- How pandas materialises one xlrd cell: empty/blank cells become NaN, date
cells (xlrd type 3) become dates from the float serial, numbers and text keep
their value. -/
def readCell (cl : Cell) : Value :=
  if cl.ctype = 0 ∨ cl.ctype = 6 then .nan
  else if cl.ctype = 3 then
    match cl.val with
    | .num q => .date q.floor
    | v => v
  else cl.val

/-- The column name pandas gives a header cell (bill headers are text;
non-text headers get a printed form, which the bills never exercise). -/
def headerName (v : Value) : String :=
  match v with
  | .str s => s
  | .num q => toString q.num
  | _ => ""

/-- Python `int(x)`: truncation toward zero for a rational. -/
def intTrunc (q : ℚ) : ℤ := if 0 ≤ q then q.floor else -(Rat.floor (-q))

/-- The `converters = {"Account Number": int}` entry of the source: Python
`int()` applied to a cell value; raises on NaN, infinities, dates and
non-integer text. -/
def intConverter (v : Value) : Except PyErr Value :=
  match v with
  | .num q => .ok (.num (intTrunc q : ℚ))
  | .str s =>
    match s.toInt? with
    | some n => .ok (.num (n : ℚ))
    | none => .error .valueError
  | _ => .error .valueError

/-- Pad a short row with NaN (pandas supplies NaN for missing trailing
cells). -/
def padTo (n : Nat) (l : List Value) : List Value :=
  l ++ List.replicate (n - l.length) .nan

/-- The columns `usecols=list(range(1, last_col + 1))` of one sheet row, as
pandas values: columns 1 through `lastCol` inclusive. -/
def selectCols (lastCol : Nat) (row : List Cell) : List Value :=
  padTo lastCol (((row.drop 1).take lastCol).map readCell)

/-- Apply the extraction converters to one data row: cells in columns named
"Account Number" go through Python `int()`. -/
def applyConvRow (names : List String) (cells : List Value) : Except PyErr (List Value) :=
  mapE (fun p => if p.1 = "Account Number" then intConverter p.2 else .ok p.2) (names.zip cells)

/-- Form one DataFrame row under `index_col=0`: the first retained column
becomes the row index, the remaining retained columns the data cells. -/
def rowToDRow (names : List String) (cells : List Value) : Except PyErr DRow :=
  match applyConvRow names cells with
  | .error e => .error e
  | .ok [] => .error .indexError
  | .ok (i :: rest) => .ok ⟨i, rest⟩

/-- The data rows pandas parses: everything below the header row, minus the
final `skipfooter` rows of the file. -/
def pandasDataRows (s : Sheet) (headerRow skipfooter lastCol : Nat) : List (List Value) :=
  ((s.cells.map (selectCols lastCol)).drop (headerRow + 1)).take
    (((s.cells.map (selectCols lastCol)).drop (headerRow + 1)).length - skipfooter)

/-- The `pd.read_excel(io, sheet_name, header=label_row, skipfooter,
index_col=0, converters, usecols=list(range(1, last_col + 1)))` call of
`get_bill_dataframe`: column names from row `headerRow` (restricted to the
selected columns), data rows from `headerRow + 1` to the end of the sheet
minus the final `skipfooter` rows, first retained column as index, `int`
conversion on columns named "Account Number". -/
def read_excel (s : Sheet) (headerRow skipfooter lastCol : Nat) : Except PyErr DF :=
  match (s.cells.map (selectCols lastCol))[headerRow]? with
  | none => .error .indexError
  | some hdr =>
    match hdr.map headerName with
    | [] => .error .indexError
    | iname :: rest =>
      match mapE (rowToDRow (iname :: rest)) (pandasDataRows s headerRow skipfooter lastCol) with
      | .error e => .error e
      | .ok rows => .ok ⟨iname, rest, rows⟩

/-- `get_bill_dataframe(filename)`: open the workbook, locate the "Invoice
Summary" sheet (`XLRDError` if absent), detect the layout, and read the data
region.  `footer_size = num_rows - (label_row + 1) - lines` is computed here
in natural subtraction; whenever `get_billing_lines` succeeds the Python
value is at least 1 (proved below for claim C10), so the two agree. -/
def get_bill_dataframe (wb : Workbook) : Except PyErr DF :=
  match sheet_by_name wb "Invoice Summary" with
  | .error e => .error e
  | .ok sheet =>
    let num_rows := sheet.nrows
    match get_billing_lines sheet with
    | .error e => .error e
    | .ok lines =>
      match find_in_sheet (.str "Line #") sheet with
      | none => .error .lookupError
      | some (label_row, _) =>
        match find_in_sheet (.str "Metered Usage [kWh]") sheet with
        | none => .error .lookupError
        | some (_, last_col) =>
          let footer_size := num_rows - (label_row + 1) - lines
          read_excel sheet label_row footer_size last_col

/-! ### Table Merger and Derivation Engine -/

/-- The `process.cfg` contents that `process` consults: the optional `[Drop]`
section, whose keys configparser has already lowercased.  (The `[Aliases]`
section is read separately by `main` and passed to `write_output`.) -/
structure Config where
  dropSection : Option (List String)

/-- Value of the cell in column `name` of a row, by first matching column
name; missing columns and short rows read as NaN (as after a pandas
reindex). -/
def getCellN (cols : List String) (cells : List Value) (name : String) : Value :=
  match cols.findIdx? (fun c => c == name) with
  | some i => (cells[i]?).getD .nan
  | none => .nan

/-- Overwrite the cell of column `name`, or append a new final column cell if
the name is absent (pandas `df[name] = value` semantics, per row). -/
def setCellN (cols : List String) (cells : List Value) (name : String) (v : Value) : List Value :=
  match cols.findIdx? (fun c => c == name) with
  | some i => cells.set i v
  | none => cells ++ [v]

/-- Column list after a pandas `df[name] = ...` assignment: unchanged if the
column exists, otherwise the new name is appended at the end. -/
def addCol (cols : List String) (name : String) : List String :=
  if cols.contains name then cols else cols ++ [name]

/-- Column-name union in order of first appearance, as `pd.concat` aligns
frames (default `sort=False`). -/
def unionCols (dfs : List DF) : List String :=
  dfs.foldl (fun acc df => acc ++ df.colNames.filter (fun n => !(acc.contains n))) []

/-- Reindex one row onto the union columns, filling missing columns with NaN
(`pd.concat` alignment). -/
def reindexRow (newCols oldCols : List String) (r : DRow) : DRow :=
  ⟨r.idx, newCols.map (getCellN oldCols r.cells)⟩

/-- `pd.concat(bills)` (line 78): all rows of all frames in order, columns
aligned on the name union; `pd.concat` of an empty list raises `ValueError`.
The index name is taken from the first frame. -/
def concatFrames (dfs : List DF) : Except PyErr DF :=
  match dfs with
  | [] => .error .valueError
  | first :: _ =>
    let cols := unionCols dfs
    .ok ⟨first.indexName, cols,
      (dfs.map (fun df => df.rows.map (reindexRow cols df.colNames))).flatten⟩

/-- `pd.to_datetime` on one cell: date-typed cells pass through, NaN becomes
NaT (kept as `nan`); parsing of other representations (strings, serial
numbers) is not reached by extracted bills, whose date cells arrive
date-typed from `read_excel`, and is modelled as a parse failure. -/
def to_datetime (v : Value) : Except PyErr Value :=
  match v with
  | .date d => .ok (.date d)
  | .nan => .ok .nan
  | _ => .error .parseError

/-- The `dt.date()` call applied to each parsed value (lines 81 and 83);
`NaT.date()` raises. -/
def pyDateOf (v : Value) : Except PyErr Value :=
  match v with
  | .date d => .ok (.date d)
  | _ => .error .valueError

/-- Subtraction of two parsed date cells (line 86): a `timedelta`. -/
def vsub (a b : Value) : Except PyErr Value :=
  match a, b with
  | .date x, .date y => .ok (.timedelta (x - y))
  | _, _ => .error .typeError

/-- Division of a `timedelta` by `np.timedelta64(1, 'D')` (line 87): the
float number of days. -/
def divTimedelta (v : Value) : Except PyErr Value :=
  match v with
  | .timedelta d => .ok (.num (d : ℚ))
  | _ => .error .typeError

/-- Float division of two cells (line 88), with numpy float semantics at a
zero denominator: `x / 0` is `±inf` for nonzero `x` and `NaN` for `0 / 0`;
NaN operands propagate; non-numeric operands raise `TypeError`. -/
def vdiv (a b : Value) : Except PyErr Value :=
  match a, b with
  | .num x, .num y =>
    .ok (if y = 0 then (if x = 0 then .nan else if 0 < x then .inf else .neginf)
      else .num (x / y))
  | .nan, .num _ => .ok .nan
  | .num _, .nan => .ok .nan
  | .nan, .nan => .ok .nan
  | .inf, .num y => .ok (if 0 ≤ y then .inf else .neginf)
  | .neginf, .num y => .ok (if 0 ≤ y then .neginf else .inf)
  | .num _, .inf => .ok (.num 0)
  | .num _, .neginf => .ok (.num 0)
  | .inf, .nan => .ok .nan
  | .neginf, .nan => .ok .nan
  | .nan, .inf => .ok .nan
  | .nan, .neginf => .ok .nan
  | .inf, .inf => .ok .nan
  | .inf, .neginf => .ok .nan
  | .neginf, .inf => .ok .nan
  | .neginf, .neginf => .ok .nan
  | _, _ => .error .typeError

/-- Lines 80-83 applied to one row: parse both date columns and reduce them
to dates.  The pandas statements are columnwise; they are modelled per row,
which is pointwise the same computation. -/
def parseRowDates (cols : List String) (r : DRow) : Except PyErr DRow :=
  match to_datetime (getCellN cols r.cells "Reading From Date") with
  | .error e => .error e
  | .ok v1 =>
    match pyDateOf v1 with
    | .error e => .error e
    | .ok d1 =>
      match to_datetime (getCellN cols (setCellN cols r.cells "Reading From Date" d1)
          "Reading To Date") with
      | .error e => .error e
      | .ok v2 =>
        match pyDateOf v2 with
        | .error e => .error e
        | .ok d2 =>
          .ok ⟨r.idx, setCellN cols (setCellN cols r.cells "Reading From Date" d1)
            "Reading To Date" d2⟩

/-- Lines 80-83: convert the date columns from their read form to dates.
Reading a missing column raises `KeyError`. -/
def parseDates (df : DF) : Except PyErr DF :=
  if !(df.colNames.contains "Reading From Date") then .error .keyError
  else if !(df.colNames.contains "Reading To Date") then .error .keyError
  else
    match mapE (parseRowDates df.colNames) df.rows with
    | .error e => .error e
    | .ok rows => .ok ⟨df.indexName, df.colNames, rows⟩

/-- Lines 86-88 applied to one row: days in reading and kWh per day. -/
def deriveRow (cols : List String) (r : DRow) : Except PyErr DRow :=
  match vsub (getCellN cols r.cells "Reading To Date")
      (getCellN cols r.cells "Reading From Date") with
  | .error e => .error e
  | .ok td =>
    match divTimedelta td with
    | .error e => .error e
    | .ok days =>
      match vdiv (getCellN (addCol cols "Days In Reading")
            (setCellN cols r.cells "Days In Reading" days) "Metered Usage [kWh]")
          (getCellN (addCol cols "Days In Reading")
            (setCellN cols r.cells "Days In Reading" days) "Days In Reading") with
      | .error e => .error e
      | .ok kwh =>
        .ok ⟨r.idx, setCellN (addCol cols "Days In Reading")
          (setCellN cols r.cells "Days In Reading" days) "kWh Per Day" kwh⟩

/-- Lines 86-88: the two derived columns.  Reading a missing column raises
`KeyError`; the columnwise pandas assignments are modelled per row. -/
def deriveStage (df : DF) : Except PyErr DF :=
  if !(df.colNames.contains "Reading To Date") then .error .keyError
  else if !(df.colNames.contains "Reading From Date") then .error .keyError
  else if !(df.colNames.contains "Metered Usage [kWh]") then .error .keyError
  else
    match mapE (deriveRow df.colNames) df.rows with
    | .error e => .error e
    | .ok rows =>
      .ok ⟨df.indexName, addCol (addCol df.colNames "Days In Reading") "kWh Per Day", rows⟩

/-- One row filter `mass_df = mass_df[mass_df[name] != v]` (lines 91-92):
`KeyError` if the column is missing, otherwise keep the rows whose cell
differs from `v` (NaN cells compare unequal and are kept, as in pandas). -/
def filterNe (df : DF) (name : String) (v : Value) : Except PyErr DF :=
  match df.colNames.findIdx? (fun c => c == name) with
  | none => .error .keyError
  | some _ =>
    .ok ⟨df.indexName, df.colNames,
      df.rows.filter (fun r => !(getCellN df.colNames r.cells name == v))⟩

/-- Python `str.lower()` on a column label, written over the character list
(equivalent to `String.toLower`, whose native loop does not reduce). -/
def strLower (s : String) : String := ⟨s.data.map Char.toLower⟩

/-- `mass_df.drop(labels=label, axis=1)`: removes every column with that
name; raises `KeyError` when no column has it. -/
def dropAllCols (df : DF) (label : String) : Except PyErr DF :=
  if df.colNames.contains label then
    .ok ⟨df.indexName, df.colNames.filter (fun c => !(c == label)),
      df.rows.map (fun r =>
        ⟨r.idx, ((df.colNames.zip r.cells).filter (fun p => !(p.1 == label))).map Prod.snd⟩)⟩
  else .error .keyError

/-- The `for drop_label in mass_df.columns.values.tolist()` loop (lines
96-99): the label snapshot is taken once, and each matching label is dropped
from the current frame. -/
def dropLoop (df : DF) : List String → List String → Except PyErr DF
  | [], _ => .ok df
  | l :: ls, ds =>
    if ds.contains (strLower l) then
      match dropAllCols df l with
      | .error e => .error e
      | .ok df' => dropLoop df' ls ds
    else dropLoop df ls ds

/-- Lines 94-99: drop the configured columns after processing, if the config
has a `[Drop]` section. -/
def dropStage (df : DF) (cfg : Config) : Except PyErr DF :=
  match cfg.dropSection with
  | none => .ok df
  | some ds => dropLoop df df.colNames ds

/-- The table pipeline of `process` on loaded frames (lines 78-101): concat,
date parsing, derived columns, the two row filters, configured column drops.
This is the `merge_and_derive` component of the specification. -/
def merge_and_derive (bills : List DF) (cfg : Config) : Except PyErr DF :=
  match concatFrames bills with
  | .error e => .error e
  | .ok mass =>
    match parseDates mass with
    | .error e => .error e
    | .ok mass1 =>
      match deriveStage mass1 with
      | .error e => .error e
      | .ok mass2 =>
        match filterNe mass2 "Service Classification" (.str "Sentinel Lights") with
        | .error e => .error e
        | .ok mass3 =>
          match filterNe mass3 "Reason Not Billed"
              (.str "No billing as of summary billing cut off date") with
          | .error e => .error e
          | .ok mass4 => dropStage mass4 cfg

/-- `process(spreadsheets, config)` (lines 75-101): load every workbook with
`get_bill_dataframe`, then run the table pipeline. -/
def process (wbs : List Workbook) (cfg : Config) : Except PyErr DF :=
  match mapE get_bill_dataframe wbs with
  | .error e => .error e
  | .ok bills => merge_and_derive bills cfg

/-! ### Output Writer -/

/-- Python `str()` of an index value: integers print without a fraction. -/
def valueStr (v : Value) : String :=
  match v with
  | .str s => s
  | .num q => if q.den = 1 then toString q.num else toString q
  | .nan => "nan"
  | .inf => "inf"
  | .neginf => "-inf"
  | .date d => toString d
  | .timedelta d => toString d

/-- `set(mass_df.index)` (line 105): the distinct account identifiers.  A
Python set iterates in an unspecified order; the model fixes the order of
first appearance. -/
def accountsOf (df : DF) : List Value :=
  (df.rows.map DRow.idx).eraseDups

/-- `write_output(mass_df, aliases)` (lines 104-115): one output sheet per
account; the sheet is named by the alias looked up under `str(account_num)`
when present, else by `str(account_num)` itself, and holds that account's
rows. -/
def write_output (df : DF) (aliases : List (String × String)) : List (String × List DRow) :=
  (accountsOf df).map (fun acct =>
    (match List.lookup (valueStr acct) aliases with
      | some a => a
      | none => valueStr acct,
      df.rows.filter (fun r => r.idx == acct)))

/-- `main` after loading config and aliases: process then write; any
extraction or processing error aborts before any output is produced. -/
def mainRun (wbs : List Workbook) (cfg : Config) (aliases : List (String × String)) :
    Except PyErr (List (String × List DRow)) :=
  match process wbs cfg with
  | .error e => .error e
  | .ok df => .ok (write_output df aliases)
/-! ### Decidability helpers and well-formedness -/

instance {e a : Type} [DecidableEq e] [DecidableEq a] : DecidableEq (Except e a) :=
  fun x y =>
    match x, y with
    | .ok u, .ok v =>
      if h : u = v then isTrue (by rw [h]) else isFalse (fun hc => by cases hc; exact h rfl)
    | .error u, .error v =>
      if h : u = v then isTrue (by rw [h]) else isFalse (fun hc => by cases hc; exact h rfl)
    | .ok _, .error _ => isFalse (fun hc => by cases hc)
    | .error _, .ok _ => isFalse (fun hc => by cases hc)

/-- Whether a value is an integral float (`num` with denominator 1). -/
def isIntValue (v : Value) : Bool :=
  match v with
  | .num q => q.den == 1
  | _ => false

/-- Well-formed frame: every row has exactly one cell per data column.  All
frames built by `read_excel` or `concatFrames` satisfy this. -/
def DFwf (df : DF) : Prop := ∀ r ∈ df.rows, r.cells.length = df.colNames.length

instance (df : DF) : Decidable (DFwf df) :=
  show Decidable (∀ r ∈ df.rows, r.cells.length = df.colNames.length) from inferInstance

/-! ### Concrete fixtures used by the per-claim witnesses and counterexamples -/

/-- C1 fixture: the numeric run below "Line #" reaches the last sheet row. -/
def sheetC1 : Sheet := ⟨[[⟨.str "Line #", 1⟩], [⟨.num 1, 2⟩]]⟩

/-- C1 fixture: the walk stops at a non-numeric cell inside the sheet. -/
def sheetC1w : Sheet := ⟨[[⟨.str "Line #", 1⟩], [⟨.num 1, 2⟩], [⟨.str "Total", 1⟩]]⟩

/-- C2 fixture: a minimal bill whose first retained column is not named
"Account Number" and holds the non-integral float 3.5. -/
def sheetC2 : Sheet := ⟨[
  [⟨.str "Line #", 1⟩, ⟨.str "Acct", 1⟩, ⟨.str "Metered Usage [kWh]", 1⟩],
  [⟨.num 1, 2⟩, ⟨.num (7/2), 2⟩, ⟨.num 10, 2⟩],
  [⟨.str "Total", 1⟩, ⟨.str "", 0⟩, ⟨.num 10, 2⟩]]⟩

/-- C2 fixture: the workbook around `sheetC2`. -/
def wbC2 : Workbook := [("Invoice Summary", sheetC2)]

/-- C2 fixture: the frame `get_bill_dataframe` extracts from `wbC2`. -/
def dfC2o : DF := ⟨"Acct", ["Metered Usage [kWh]"], [⟨.num (7/2), [.num 10]⟩]⟩

/-- The five bill columns the pipeline reads, shared by several fixtures. -/
def colsFive : List String :=
  ["Reading From Date", "Reading To Date", "Metered Usage [kWh]",
   "Service Classification", "Reason Not Billed"]

/-- C3 fixture: two billed rows and one "Sentinel Lights" row. -/
def dfC3a : DF := ⟨"Account Number", colsFive,
  [⟨.num 111, [.date 10, .date 12, .num 6, .str "General", .str ""]⟩,
   ⟨.num 222, [.date 10, .date 12, .num 4, .str "Sentinel Lights", .str ""]⟩]⟩

/-- C3 fixture: a second input table. -/
def dfC3b : DF := ⟨"Account Number", colsFive,
  [⟨.num 333, [.date 20, .date 25, .num 10, .str "General", .str ""]⟩]⟩

/-- C3 fixture: the concatenation of `dfC3a` and `dfC3b`. -/
def massC3 : DF := ⟨"Account Number", colsFive,
  [⟨.num 111, [.date 10, .date 12, .num 6, .str "General", .str ""]⟩,
   ⟨.num 222, [.date 10, .date 12, .num 4, .str "Sentinel Lights", .str ""]⟩,
   ⟨.num 333, [.date 20, .date 25, .num 10, .str "General", .str ""]⟩]⟩

/-- C3 fixture: the pipeline output for `[dfC3a, dfC3b]` with no drops. -/
def dfC3o : DF := ⟨"Account Number",
  ["Reading From Date", "Reading To Date", "Metered Usage [kWh]",
   "Service Classification", "Reason Not Billed", "Days In Reading", "kWh Per Day"],
  [⟨.num 111, [.date 10, .date 12, .num 6, .str "General", .str "", .num 2, .num 3]⟩,
   ⟨.num 333, [.date 20, .date 25, .num 10, .str "General", .str "", .num 5, .num 2]⟩]⟩

/-- C4 fixture: a reading period of zero days with nonzero usage. -/
def dfC4 : DF := ⟨"Account Number", colsFive,
  [⟨.num 111, [.date 0, .date 0, .num 5, .str "General", .str ""]⟩]⟩

/-- C4 fixture: what the pipeline produces from `dfC4`: "Days In Reading" 0
and "kWh Per Day" +inf. -/
def dfC4o : DF := ⟨"Account Number",
  ["Reading From Date", "Reading To Date", "Metered Usage [kWh]",
   "Service Classification", "Reason Not Billed", "Days In Reading", "kWh Per Day"],
  [⟨.num 111, [.date 0, .date 0, .num 5, .str "General", .str "", .num 0, .inf]⟩]⟩

/-- C5 fixture: a workbook with no "Invoice Summary" sheet. -/
def wbC5a : Workbook := [("Sheet1", ⟨[[⟨.str "x", 1⟩]]⟩)]

/-- C5 fixture: an "Invoice Summary" sheet with no "Line #" cell. -/
def wbC5b : Workbook := [("Invoice Summary", ⟨[[⟨.str "x", 1⟩]]⟩)]

/-- C6 fixture: a one-row bill table. -/
def dfC6 : DF := ⟨"Account Number", colsFive,
  [⟨.num 111, [.date 100, .date 104, .num 6, .str "General", .str ""]⟩]⟩

/-- C6 fixture: the config that drops the "Service Classification" column. -/
def cfgC6 : Config := ⟨some ["service classification"]⟩

/-- C6 fixture: the first-run output of `merge_and_derive [dfC6] cfgC6`
(the "Service Classification" column is gone). -/
def dfC6x : DF := ⟨"Account Number",
  ["Reading From Date", "Reading To Date", "Metered Usage [kWh]",
   "Reason Not Billed", "Days In Reading", "kWh Per Day"],
  [⟨.num 111, [.date 100, .date 104, .num 6, .str "", .num 4, .num (3/2)]⟩]⟩

/-- C6 fixture: output of `merge_and_derive [dfC6] ⟨none⟩`, a fixed point of
the pipeline. -/
def dfC6o : DF := ⟨"Account Number",
  ["Reading From Date", "Reading To Date", "Metered Usage [kWh]",
   "Service Classification", "Reason Not Billed", "Days In Reading", "kWh Per Day"],
  [⟨.num 111, [.date 100, .date 104, .num 6, .str "General", .str "", .num 4, .num (3/2)]⟩]⟩

/-- C7 fixture: a table with a duplicated "Extra" column name. -/
def dfC7dup : DF := ⟨"Account Number", colsFive ++ ["Extra", "Extra"],
  [⟨.num 111, [.date 100, .date 104, .num 6, .str "General", .str "", .num 1, .num 2]⟩]⟩

/-- C7 fixture: the config that drops "extra". -/
def cfgC7 : Config := ⟨some ["extra"]⟩

/-- C7 fixture: a frame with distinct column names for the witness. -/
def dfC7 : DF := ⟨"Account Number", ["Keep Me", "Service Classification", "Other"],
  [⟨.num 111, [.num 1, .str "General", .num 2]⟩]⟩

/-- C8 fixture: a two-account merged table. -/
def dfC8 : DF := ⟨"Account Number", ["A"],
  [⟨.num 111, [.num 1]⟩, ⟨.num 222, [.num 2]⟩]⟩

/-- C8 fixture: account 111 is aliased to "Smith". -/
def aliasesC8 : List (String × String) := [("111", "Smith")]

/-- C9 fixture: the value "b" occurs at (0, 1) and at (1, 0). -/
def sheetC9 : Sheet :=
  ⟨[[⟨.str "a", 1⟩, ⟨.str "b", 1⟩], [⟨.str "b", 1⟩, ⟨.str "c", 1⟩]]⟩

/-- C10 fixture: one billing line and a one-row footer. -/
def sheetC10 : Sheet := ⟨[[⟨.str "Line #", 1⟩], [⟨.num 2, 2⟩], [⟨.str "Total", 1⟩]]⟩

/-- The row-survival predicate of the two filters (lines 91-92): a row is
kept iff its "Service Classification" differs from "Sentinel Lights" and its
"Reason Not Billed" differs from the cut-off-date message. -/
def keepRow (cols : List String) (r : DRow) : Bool :=
  !(getCellN cols r.cells "Service Classification" == .str "Sentinel Lights") &&
  !(getCellN cols r.cells "Reason Not Billed" ==
      .str "No billing as of summary billing cut off date")

/-- The column-survival criterion of the drop loop (lines 95-99): a column
named `m` survives when the config has no Drop section or the section does
not list the lowercased name. -/
def colKept (cfg : Config) (m : String) : Bool :=
  match cfg.dropSection with
  | none => true
  | some ds => !(ds.contains (strLower m))

/-- C4 fixture: the single derived row of `dfC4o`. -/
def rowC4o : DRow :=
  ⟨.num 111, [.date 0, .date 0, .num 5, .str "General", .str "", .num 0, .inf]⟩

/-! ### Lemmas about the Sheet Locator -/

lemma rowFindIdx_none_iff (val : Value) (row : List Cell) :
    rowFindIdx val row = none ↔ ∀ cl ∈ row, cl.val ≠ val := by
  unfold rowFindIdx
  rw [List.findIdx?_eq_none_iff]
  constructor
  · intro h cl hm hv
    have hb := h cl hm
    simp [hv] at hb
  · intro h cl hm
    simpa using h cl hm

lemma rowFindIdx_some (val : Value) (row : List Cell) (j : Nat)
    (h : rowFindIdx val row = some j) :
    (∃ cl, row[j]? = some cl ∧ cl.val = val) ∧
      ∀ k cl', k < j → row[k]? = some cl' → cl'.val ≠ val := by
  unfold rowFindIdx at h
  rw [List.findIdx?_eq_some_iff_findIdx_eq] at h
  obtain ⟨hlt, hidx⟩ := h
  obtain ⟨hp, hbelow⟩ := (List.findIdx_eq hlt).mp hidx
  refine ⟨⟨row[j], List.getElem?_eq_getElem hlt, by simpa using hp⟩, ?_⟩
  intro k cl' hk hget
  have hklen : k < row.length := Nat.lt_trans hk hlt
  rw [List.getElem?_eq_getElem hklen] at hget
  have hf := hbelow k hk
  intro hval
  rw [Option.some_inj] at hget
  subst hget
  simp [hval] at hf

lemma findRows_none_iff (val : Value) :
    ∀ (rows : List (List Cell)) (i : Nat),
      findRows val rows i = none ↔ ∀ row ∈ rows, rowFindIdx val row = none := by
  intro rows
  induction rows with
  | nil => intro i; simp [findRows]
  | cons row rest ih =>
    intro i
    unfold findRows
    cases hr : rowFindIdx val row with
    | some j =>
      constructor
      · intro h; exact absurd h (by simp)
      · intro h
        have hrow := h row (List.mem_cons_self row rest)
        rw [hr] at hrow
        exact absurd hrow (by simp)
    | none =>
      rw [ih (i + 1)]
      constructor
      · intro h row' hm
        rcases List.mem_cons.mp hm with hEq | hm'
        · rw [hEq]; exact hr
        · exact h row' hm'
      · intro h row' hm'
        exact h row' (List.mem_cons_of_mem _ hm')

lemma findRows_some (val : Value) :
    ∀ (rows : List (List Cell)) (i r c : Nat),
      findRows val rows i = some (r, c) →
      ∃ k, r = i + k ∧
        (∃ row, rows[k]? = some row ∧ rowFindIdx val row = some c) ∧
        ∀ j row', j < k → rows[j]? = some row' → rowFindIdx val row' = none := by
  intro rows
  induction rows with
  | nil => intro i r c h; simp [findRows] at h
  | cons row rest ih =>
    intro i r c h
    unfold findRows at h
    cases hr : rowFindIdx val row with
    | some j =>
      rw [hr] at h
      rw [Option.some_inj] at h
      cases h
      refine ⟨0, by omega, ⟨row, by simp, hr⟩, ?_⟩
      intro j' row' hj' hget
      exact absurd hj' (Nat.not_lt_zero j')
    | none =>
      rw [hr] at h
      obtain ⟨k, hk, hrow, hbelow⟩ := ih (i + 1) r c h
      refine ⟨k + 1, by omega, by simpa using hrow, ?_⟩
      intro j row' hj hget
      cases j with
      | zero =>
        simp only [List.getElem?_cons_zero, Option.some_inj] at hget
        rw [← hget]; exact hr
      | succ j' =>
        exact hbelow j' row' (by omega) (by simpa using hget)

/-! ### Lemmas about the Layout Detector walk -/

lemma numRunBelow_zero_of (s : Sheet) (c r : Nat)
    (h : cellTypeOpt s r c ≠ some XLS_FLOAT_TYPE) : numRunBelow s c r = 0 := by
  unfold numRunBelow
  rcases hlt : s.cells[r]? with _ | row
  · have hle : s.cells.length ≤ r := List.getElem?_eq_none_iff.mp hlt
    rw [List.drop_eq_nil_of_le hle]
    simp
  · obtain ⟨hr, hrowEq⟩ := List.getElem?_eq_some_iff.mp hlt
    rw [List.drop_eq_getElem_cons hr, hrowEq, List.map_cons, List.takeWhile_cons]
    have hne : (((row[c]?).map Cell.ctype) == some XLS_FLOAT_TYPE) = false := by
      have hcell : cellTypeOpt s r c = (row[c]?).map Cell.ctype := by
        unfold cellTypeOpt
        rw [hlt]
        rfl
      rw [hcell] at h
      simpa using h
    rw [hne]
    simp

lemma numRunBelow_succ_of (s : Sheet) (c r : Nat)
    (h : cellTypeOpt s r c = some XLS_FLOAT_TYPE) :
    numRunBelow s c r = numRunBelow s c (r + 1) + 1 := by
  unfold numRunBelow
  rcases hlt : s.cells[r]? with _ | row
  · exfalso
    unfold cellTypeOpt at h
    rw [hlt] at h
    simp at h
  · obtain ⟨hr, hrowEq⟩ := List.getElem?_eq_some_iff.mp hlt
    rw [List.drop_eq_getElem_cons hr, hrowEq, List.map_cons, List.takeWhile_cons]
    have hb : (((row[c]?).map Cell.ctype) == some XLS_FLOAT_TYPE) = true := by
      unfold cellTypeOpt at h
      rw [hlt] at h
      simpa using h
    rw [hb]
    simp

lemma numRunBelow_le (s : Sheet) (c r : Nat) : numRunBelow s c r ≤ s.nrows - r := by
  unfold numRunBelow Sheet.nrows
  have h1 := (List.takeWhile_sublist
    (l := (s.cells.drop r).map (fun row => (row[c]?).map Cell.ctype))
    (fun t => t == some XLS_FLOAT_TYPE)).length_le
  rw [List.length_map, List.length_drop] at h1
  exact h1

lemma walkLines_ok (s : Sheet) (c : Nat) :
    ∀ (n fuel r ln : Nat) (t : Nat), numRunBelow s c r = n → n < fuel →
      cellTypeOpt s (r + n) c = some t →
      walkLines s c fuel r ln = .ok (ln + n) := by
  intro n
  induction n with
  | zero =>
    intro fuel r ln t hrun hfuel hstop
    cases fuel with
    | zero => omega
    | succ f =>
      rw [Nat.add_zero] at hstop
      unfold walkLines
      rw [hstop]
      have hne : t ≠ XLS_FLOAT_TYPE := by
        intro hEq
        rw [hEq] at hstop
        have := numRunBelow_succ_of s c r hstop
        omega
      simp [hne]
  | succ k ih =>
    intro fuel r ln t hrun hfuel hstop
    have hhead : cellTypeOpt s r c = some XLS_FLOAT_TYPE := by
      by_contra hc
      have := numRunBelow_zero_of s c r hc
      omega
    have hnext : numRunBelow s c (r + 1) = k := by
      have := numRunBelow_succ_of s c r hhead
      omega
    cases fuel with
    | zero => omega
    | succ f =>
      unfold walkLines
      rw [hhead]
      show (if XLS_FLOAT_TYPE = XLS_FLOAT_TYPE then walkLines s c f (r + 1) (ln + 1)
        else Except.ok ln) = Except.ok (ln + (k + 1))
      rw [if_pos rfl]
      have hstep : r + 1 + k = r + (k + 1) := by omega
      rw [ih f (r + 1) (ln + 1) t hnext (by omega) (by rw [hstep]; exact hstop)]
      have h2 : ln + 1 + k = ln + (k + 1) := by omega
      rw [h2]

lemma walkLines_oob (s : Sheet) (c : Nat) :
    ∀ (n fuel r ln : Nat), numRunBelow s c r = n → n < fuel →
      cellTypeOpt s (r + n) c = none →
      walkLines s c fuel r ln = .error .indexError := by
  intro n
  induction n with
  | zero =>
    intro fuel r ln hrun hfuel hstop
    cases fuel with
    | zero => omega
    | succ f =>
      rw [Nat.add_zero] at hstop
      unfold walkLines
      rw [hstop]
  | succ k ih =>
    intro fuel r ln hrun hfuel hstop
    have hhead : cellTypeOpt s r c = some XLS_FLOAT_TYPE := by
      by_contra hc
      have := numRunBelow_zero_of s c r hc
      omega
    have hnext : numRunBelow s c (r + 1) = k := by
      have := numRunBelow_succ_of s c r hhead
      omega
    cases fuel with
    | zero => omega
    | succ f =>
      unfold walkLines
      rw [hhead]
      show (if XLS_FLOAT_TYPE = XLS_FLOAT_TYPE then walkLines s c f (r + 1) (ln + 1)
        else Except.ok ln) = Except.error PyErr.indexError
      rw [if_pos rfl]
      have hstep : r + 1 + k = r + (k + 1) := by omega
      exact ih f (r + 1) (ln + 1) hnext (by omega) (by rw [hstep]; exact hstop)

lemma get_billing_lines_ok_char (s : Sheet) (r c t : Nat)
    (hfind : find_in_sheet (.str "Line #") s = some (r, c))
    (hstop : cellTypeOpt s (r + 1 + numRunBelow s c (r + 1)) c = some t) :
    get_billing_lines s = .ok (numRunBelow s c (r + 1)) := by
  unfold get_billing_lines
  rw [hfind]
  have hle := numRunBelow_le s c (r + 1)
  have hfuel : numRunBelow s c (r + 1) < s.nrows + 1 := by omega
  have hwalk := walkLines_ok s c (numRunBelow s c (r + 1)) (s.nrows + 1) (r + 1) 0 t rfl hfuel hstop
  show walkLines s c (s.nrows + 1) (r + 1) 0 = .ok (numRunBelow s c (r + 1))
  rw [hwalk]
  simp

lemma get_billing_lines_oob_char (s : Sheet) (r c : Nat)
    (hfind : find_in_sheet (.str "Line #") s = some (r, c))
    (hstop : cellTypeOpt s (r + 1 + numRunBelow s c (r + 1)) c = none) :
    get_billing_lines s = .error .indexError := by
  unfold get_billing_lines
  rw [hfind]
  have hle := numRunBelow_le s c (r + 1)
  have hfuel : numRunBelow s c (r + 1) < s.nrows + 1 := by omega
  show walkLines s c (s.nrows + 1) (r + 1) 0 = .error .indexError
  exact walkLines_oob s c (numRunBelow s c (r + 1)) (s.nrows + 1) (r + 1) 0 rfl hfuel hstop

lemma get_billing_lines_ok_inv (s : Sheet) (r c ln : Nat)
    (hfind : find_in_sheet (.str "Line #") s = some (r, c))
    (hok : get_billing_lines s = .ok ln) :
    ln = numRunBelow s c (r + 1) ∧ r + 1 + ln < s.nrows := by
  rcases hstop : cellTypeOpt s (r + 1 + numRunBelow s c (r + 1)) c with _ | t
  · rw [get_billing_lines_oob_char s r c hfind hstop] at hok
    cases hok
  · rw [get_billing_lines_ok_char s r c t hfind hstop] at hok
    have hln : ln = numRunBelow s c (r + 1) := by
      cases hok
      rfl
    refine ⟨hln, ?_⟩
    unfold cellTypeOpt at hstop
    rcases hrow : s.cells[r + 1 + numRunBelow s c (r + 1)]? with _ | row
    · rw [hrow] at hstop
      simp at hstop
    · obtain ⟨hb, _⟩ := List.getElem?_eq_some_iff.mp hrow
      unfold Sheet.nrows
      omega

/-- C9: for every worksheet and search value, `find_in_sheet` returns the
coordinate of the first cell equal to the value in row-major order (row 0
first, then row 1; within a row, column 0 first), and raises a not-found
error exactly when no cell of the sheet equals the value. -/
theorem c9_find_first_match (val : Value) (s : Sheet) :
    (∀ r c, find_in_sheet val s = some (r, c) →
      cellValOpt s r c = some val ∧
        ∀ r' c', r' < r ∨ (r' = r ∧ c' < c) → cellValOpt s r' c' ≠ some val) ∧
    (find_in_sheet val s = none ↔ ∀ r c, cellValOpt s r c ≠ some val) := by
  constructor
  · intro r c hfind
    obtain ⟨k, hk, ⟨row, hrow, hidx⟩, hbefore⟩ := findRows_some val s.cells 0 r c hfind
    have hkr : k = r := by omega
    subst hkr
    obtain ⟨⟨cl, hcl, hclv⟩, hfirst⟩ := rowFindIdx_some val row c hidx
    constructor
    · simp [cellValOpt, hrow, hcl, hclv]
    · intro r' c' hlt hv
      rcases hlt with hr' | ⟨hEq, hc'⟩
      · rcases hrow' : s.cells[r']? with _ | row'
        · simp [cellValOpt, hrow'] at hv
        · simp only [cellValOpt, hrow', Option.bind] at hv
          have hnone := hbefore r' row' hr' hrow'
          rcases hcl' : row'[c']? with _ | cl'
          · rw [hcl'] at hv; simp at hv
          · rw [hcl'] at hv
            simp at hv
            have hmem : cl' ∈ row' := List.mem_iff_getElem?.mpr ⟨c', hcl'⟩
            exact (rowFindIdx_none_iff val row').mp hnone cl' hmem hv
      · subst hEq
        simp only [cellValOpt, hrow, Option.bind] at hv
        rcases hcl' : row[c']? with _ | cl'
        · rw [hcl'] at hv; simp at hv
        · rw [hcl'] at hv
          simp at hv
          exact hfirst c' cl' hc' hcl' hv
  · constructor
    · intro hnone r c hv
      have hall := (findRows_none_iff val s.cells 0).mp hnone
      rcases hrow : s.cells[r]? with _ | row
      · simp [cellValOpt, hrow] at hv
      · simp only [cellValOpt, hrow, Option.bind] at hv
        rcases hcl : row[c]? with _ | cl
        · rw [hcl] at hv; simp at hv
        · rw [hcl] at hv
          simp at hv
          have hmem : row ∈ s.cells := List.mem_iff_getElem?.mpr ⟨r, hrow⟩
          have hmem2 : cl ∈ row := List.mem_iff_getElem?.mpr ⟨c, hcl⟩
          exact (rowFindIdx_none_iff val row).mp (hall row hmem) cl hmem2 hv
    · intro h
      unfold find_in_sheet
      rw [findRows_none_iff]
      intro row hmem
      rw [rowFindIdx_none_iff]
      intro cl hclmem hv
      obtain ⟨r, hr⟩ := List.mem_iff_getElem?.mp hmem
      obtain ⟨c, hc⟩ := List.mem_iff_getElem?.mp hclmem
      apply h r c
      simp [cellValOpt, hr, hc, hv]

/-- C9 witness: on `sheetC9` the locator hypotheses hold at a concrete input;
"b" is reported at (0, 1), the first match in row-major order, even though
"b" also occurs at (1, 0). -/
theorem c9_find_first_match_witness : cellValOpt sheetC9 0 1 = some (.str "b") :=
  ((c9_find_first_match (.str "b") sheetC9).1 0 1 (by decide)).1

/-- C1 counterexample: on `sheetC1` the "Line #" cell is at (0, 0) and the
numeric run below it extends to the last row of the sheet (run length 1 in a
2-row sheet); the claim asserts the walk then terminates normally with
`line_count = 1`, but `get_billing_lines` walks past the last row and raises
`IndexError` (out-of-bounds `cell_type` access). -/
theorem c1_line_count_counterexample :
    find_in_sheet (.str "Line #") sheetC1 = some (0, 0) ∧
      numRunBelow sheetC1 0 1 = 1 ∧ sheetC1.nrows = 2 ∧
      get_billing_lines sheetC1 = .error .indexError := by decide

/-- C1 (amended): when "Line #" is found at (r, c), let `n` be the number of
contiguous numeric-typed cells immediately below it in column c.  If the cell
after the run exists (the walk stops at a non-numeric cell inside the sheet),
`get_billing_lines` terminates normally and reports exactly `n`; if the run
reaches the last row of the sheet, the walk accesses row `r + 1 + n` out of
bounds and raises `IndexError` instead of terminating. -/
theorem c1_line_count (s : Sheet) (r c : Nat)
    (hfind : find_in_sheet (.str "Line #") s = some (r, c)) :
    (∀ t, cellTypeOpt s (r + 1 + numRunBelow s c (r + 1)) c = some t →
      get_billing_lines s = .ok (numRunBelow s c (r + 1))) ∧
    (cellTypeOpt s (r + 1 + numRunBelow s c (r + 1)) c = none →
      get_billing_lines s = .error .indexError) :=
  ⟨fun t ht => get_billing_lines_ok_char s r c t hfind ht,
   fun h => get_billing_lines_oob_char s r c hfind h⟩

/-- C1 witness: on `sheetC1w` the walk stops at the non-numeric "Total" row
and the amended theorem yields `line_count = 1`. -/
theorem c1_line_count_witness :
    get_billing_lines sheetC1w = .ok (numRunBelow sheetC1w 0 1) :=
  (c1_line_count sheetC1w 0 0 (by decide)).1 1 (by decide)

/-- C10: whenever `get_billing_lines` returns normally with `lines` for the
"Line #" cell at (r, c), the footer size `num_rows - (label_row + 1) - lines`
computed by `get_bill_dataframe` is at least 1 (as an integer), and
`label_row + 1 + lines ≤ total_rows`, so the data region together with the
skipped footer lies inside the sheet. -/
theorem c10_footer_at_least_one (s : Sheet) (r c ln : Nat)
    (hfind : find_in_sheet (.str "Line #") s = some (r, c))
    (hok : get_billing_lines s = .ok ln) :
    1 ≤ (s.nrows : ℤ) - (r + 1) - ln ∧ r + 1 + ln ≤ s.nrows := by
  obtain ⟨hln, hlt⟩ := get_billing_lines_ok_inv s r c ln hfind hok
  omega

/-- C10 witness: on `sheetC10` (one billing line, one footer row) the
hypotheses hold and the footer bound is realised. -/
theorem c10_footer_at_least_one_witness :
    1 ≤ (sheetC10.nrows : ℤ) - (0 + 1) - 1 ∧ 0 + 1 + 1 ≤ sheetC10.nrows :=
  c10_footer_at_least_one sheetC10 0 0 1 (by decide) (by decide)

/-! ### Lemmas about mapE -/

lemma mapE_ok_iff {α β : Type} (f : α → Except PyErr β) :
    ∀ (l : List α) (bs : List β),
      mapE f l = .ok bs ↔ List.Forall₂ (fun a b => f a = .ok b) l bs := by
  intro l
  induction l with
  | nil =>
    intro bs
    constructor
    · intro h
      simp only [mapE, Except.ok.injEq] at h
      subst h
      exact .nil
    · intro h
      cases h
      rfl
  | cons a l ih =>
    intro bs
    constructor
    · intro h
      unfold mapE at h
      rcases hf : f a with e | b
      · rw [hf] at h; simp at h
      · rw [hf] at h
        rcases hm : mapE f l with e | bs'
        · rw [hm] at h; simp at h
        · rw [hm] at h
          simp at h
          subst h
          exact List.Forall₂.cons hf ((ih bs').mp hm)
    · intro h
      cases h with
      | cons hf htail =>
        have h2 := (ih _).mpr htail
        simp [mapE, hf, h2]

lemma forall₂_mem_left {α β : Type} {R : α → β → Prop} :
    ∀ {l : List α} {bs : List β}, List.Forall₂ R l bs → ∀ a ∈ l, ∃ b ∈ bs, R a b := by
  intro l bs h
  induction h with
  | nil => intro a ha; simp at ha
  | cons hR htail ih =>
    intro x hx
    rcases List.mem_cons.mp hx with hEq | hm
    · subst hEq
      exact ⟨_, List.mem_cons_self _ _, hR⟩
    · obtain ⟨b, hb, hRb⟩ := ih x hm
      exact ⟨b, List.mem_cons_of_mem _ hb, hRb⟩

lemma mapE_ok_mem {α β : Type} (f : α → Except PyErr β) (l : List α) (bs : List β)
    (h : mapE f l = .ok bs) (a : α) (ha : a ∈ l) : ∃ b, f a = .ok b := by
  obtain ⟨b, _, hb⟩ := forall₂_mem_left ((mapE_ok_iff f l bs).mp h) a ha
  exact ⟨b, hb⟩

/-- C5: a workbook without an "Invoice Summary" sheet makes the extractor
fail with the sheet-not-found error (`XLRDError`); a workbook whose "Invoice
Summary" sheet has no "Line #" cell fails with the distinct
unrecognized-format error (`ValueError` from `get_billing_lines`); the two
error kinds differ; and when any input workbook fails to extract, the whole
run (`process` followed by `write_output`) aborts with an error, so no
output is produced. -/
theorem c5_errors_abort_run (wb : Workbook) :
    (List.lookup "Invoice Summary" wb = none →
      get_bill_dataframe wb = .error .xlrdError) ∧
    (∀ s, List.lookup "Invoice Summary" wb = some s →
      find_in_sheet (.str "Line #") s = none →
      get_bill_dataframe wb = .error .valueError) ∧
    PyErr.xlrdError ≠ PyErr.valueError ∧
    (∀ (wbs : List Workbook) (cfg : Config) (aliases : List (String × String)),
      wb ∈ wbs → (∃ e, get_bill_dataframe wb = .error e) →
      ∃ e, mainRun wbs cfg aliases = .error e) := by
  refine ⟨?_, ?_, by decide, ?_⟩
  · intro h
    simp [get_bill_dataframe, sheet_by_name, h]
  · intro s h1 h2
    simp [get_bill_dataframe, sheet_by_name, h1, get_billing_lines, h2]
  · intro wbs cfg aliases hmem he
    obtain ⟨e, he⟩ := he
    rcases hm : mainRun wbs cfg aliases with e' | out
    · exact ⟨e', rfl⟩
    · exfalso
      unfold mainRun at hm
      rcases hp : process wbs cfg with e' | df
      · rw [hp] at hm; simp at hm
      · unfold process at hp
        rcases hmp : mapE get_bill_dataframe wbs with e' | bills
        · rw [hmp] at hp; simp at hp
        · obtain ⟨b, hb⟩ := mapE_ok_mem get_bill_dataframe wbs bills hmp wb hmem
          rw [he] at hb
          cases hb

/-- C5 witness: concrete failing workbooks; `wbC5a` lacks the sheet and fails
with the sheet error, `wbC5b` lacks "Line #" and fails with the format error,
and a run over `wbC5a` produces no output. -/
theorem c5_errors_abort_run_witness :
    get_bill_dataframe wbC5a = .error .xlrdError ∧
    get_bill_dataframe wbC5b = .error .valueError ∧
    ∃ e, mainRun [wbC5a] ⟨none⟩ [] = .error e :=
  ⟨(c5_errors_abort_run wbC5a).1 (by decide),
   (c5_errors_abort_run wbC5b).2.1 ⟨[[⟨.str "x", 1⟩]]⟩ (by decide) (by decide),
   (c5_errors_abort_run wbC5a).2.2.2 [wbC5a] ⟨none⟩ [] (by decide)
     ⟨.xlrdError, (c5_errors_abort_run wbC5a).1 (by decide)⟩⟩

/-- C2 counterexample: `wbC2` satisfies every hypothesis of the claim
("Line #" at (0, 0), "Metered Usage [kWh]" at (0, 2), one billing line), yet
the extracted index value is the non-integral 3.5 — the first retained
column is named "Acct", so the `int` coercion keyed on "Account Number"
never fires, contradicting the claim that the index values are coerced to
integers for every such worksheet. -/
theorem c2_rectangle_counterexample :
    find_in_sheet (.str "Line #") sheetC2 = some (0, 0) ∧
    find_in_sheet (.str "Metered Usage [kWh]") sheetC2 = some (0, 2) ∧
    get_billing_lines sheetC2 = .ok 1 ∧
    get_bill_dataframe wbC2 = .ok dfC2o ∧
    dfC2o.rows.map (fun r => isIntValue r.idx) = [false] := by decide

/-- C2 (amended): when the "Invoice Summary" sheet is found, "Line #" is at
(hr, c), "Metered Usage [kWh]" at (_, lastCol) and the walk reports `lines`,
any frame the Bill Extractor returns reads exactly the rectangle whose
column-name row is sheet row `hr` restricted to columns 1..lastCol, whose
data rows are exactly the `lines` rows directly below the header (the footer
of size `total_rows - (hr + 1) - lines` is skipped), whose first retained
column becomes the row index; values are coerced to integers by `rowToDRow`
only in columns named "Account Number". -/
theorem c2_rectangle (wb : Workbook) (s : Sheet) (hr c r2 lastCol lines : Nat) (df : DF)
    (hsheet : List.lookup "Invoice Summary" wb = some s)
    (hfind : find_in_sheet (.str "Line #") s = some (hr, c))
    (hfind2 : find_in_sheet (.str "Metered Usage [kWh]") s = some (r2, lastCol))
    (hlines : get_billing_lines s = .ok lines)
    (hdf : get_bill_dataframe wb = .ok df) :
    ∃ hdr, (s.cells.map (selectCols lastCol))[hr]? = some hdr ∧
      (∀ iname rest, hdr.map headerName = iname :: rest →
        df.indexName = iname ∧ df.colNames = rest) ∧
      df.rows.length = lines ∧
      mapE (rowToDRow (hdr.map headerName))
        (((s.cells.map (selectCols lastCol)).drop (hr + 1)).take lines) = .ok df.rows := by
  obtain ⟨hln, hbound⟩ := get_billing_lines_ok_inv s hr c lines hfind hlines
  simp only [get_bill_dataframe, sheet_by_name, hsheet, hlines, hfind, hfind2] at hdf
  unfold read_excel at hdf
  have hbody : ((s.cells.map (selectCols lastCol)).drop (hr + 1)).length
      = s.nrows - (hr + 1) := by
    rw [List.length_drop, List.length_map]
    rfl
  have hdata : pandasDataRows s hr (s.nrows - (hr + 1) - lines) lastCol
      = ((s.cells.map (selectCols lastCol)).drop (hr + 1)).take lines := by
    unfold pandasDataRows
    rw [hbody]
    have harith : s.nrows - (hr + 1) - (s.nrows - (hr + 1) - lines) = lines := by omega
    rw [harith]
  rw [hdata] at hdf
  split at hdf
  next hhdr => simp at hdf
  next hdr hhdr =>
    split at hdf
    next hnames => simp at hdf
    next iname rest hnames =>
      split at hdf
      next e hmap => simp at hdf
      next rows hmap =>
        simp only [Except.ok.injEq] at hdf
        subst hdf
        refine ⟨hdr, hhdr, ?_, ?_, ?_⟩
        · intro iname' rest' hEq
          rw [hnames] at hEq
          injection hEq with h1 h2
          exact ⟨h1, h2⟩
        · have hlen := (List.Forall₂.length_eq ((mapE_ok_iff _ _ _).mp hmap)).symm
          have hb2 : lines ≤ ((s.cells.map (selectCols lastCol)).drop (hr + 1)).length := by
            rw [hbody]
            omega
          rw [List.length_take_of_le hb2] at hlen
          exact hlen
        · rw [hnames]
          exact hmap

/-- C2 witness: the amended theorem applied to the concrete workbook `wbC2`
with all hypotheses discharged. -/
theorem c2_rectangle_witness : dfC2o.rows.length = 1 := by
  obtain ⟨hdr, h1, h2, hlen, h4⟩ := c2_rectangle wbC2 sheetC2 0 0 0 2 1 dfC2o
    (by decide) (by decide) (by decide) (by decide) (by decide)
  exact hlen

/-! ### Lemmas about getCellN, setCellN and addCol -/

lemma findIdxS_none (cols : List String) (n : String) :
    cols.findIdx? (fun c => c == n) = none ↔ n ∉ cols := by
  rw [List.findIdx?_eq_none_iff]
  constructor
  · intro h hmem
    have := h n hmem
    simp at this
  · intro h c hc
    simp only [beq_eq_false_iff_ne, ne_eq]
    intro hEq
    subst hEq
    exact h hc

lemma getCellN_nil (cells : List Value) (m : String) : getCellN [] cells m = .nan := by
  simp [getCellN]

lemma getCellN_not_mem (cols : List String) (cells : List Value) (m : String)
    (h : m ∉ cols) : getCellN cols cells m = .nan := by
  unfold getCellN
  rw [(findIdxS_none cols m).mpr h]

lemma getCellN_cons (c : String) (cols : List String) (v : Value) (cells : List Value)
    (m : String) :
    getCellN (c :: cols) (v :: cells) m = if c == m then v else getCellN cols cells m := by
  unfold getCellN
  rw [List.findIdx?_cons]
  by_cases hc : c = m
  · simp [hc]
  · have hb : (c == m) = false := by simp [hc]
    rw [hb]
    simp only [Bool.false_eq_true, if_false]
    rw [List.findIdx?_start_succ]
    cases hidx : cols.findIdx? (fun x => x == m) with
    | none => simp [hidx]
    | some j => simp [hidx]

lemma setCellN_cons (c : String) (cols : List String) (v : Value) (cells : List Value)
    (n : String) (w : Value) :
    setCellN (c :: cols) (v :: cells) n w =
      if c == n then w :: cells else v :: setCellN cols cells n w := by
  unfold setCellN
  rw [List.findIdx?_cons]
  by_cases hc : c = n
  · simp [hc]
  · have hb : (c == n) = false := by simp [hc]
    rw [hb]
    simp only [Bool.false_eq_true, if_false]
    rw [List.findIdx?_start_succ]
    cases hidx : cols.findIdx? (fun x => x == n) with
    | none => simp [hidx]
    | some j => simp [hidx]

lemma addCol_cons (c : String) (cols : List String) (n : String) :
    addCol (c :: cols) n = if c == n then c :: cols else c :: addCol cols n := by
  unfold addCol
  rw [List.contains_cons]
  by_cases hc : c = n
  · simp [hc]
  · simp only [hc, Ne.symm hc, beq_iff_eq, if_false, Bool.false_or]
    by_cases h2 : n ∈ cols <;> simp [h2, hc, Ne.symm hc]

lemma getCellN_set_self : ∀ (cols : List String) (cells : List Value),
    cells.length = cols.length → ∀ (n : String) (v : Value),
      getCellN (addCol cols n) (setCellN cols cells n v) n = v := by
  intro cols
  induction cols with
  | nil =>
    intro cells hwf n v
    have hnil : cells = [] := List.eq_nil_of_length_eq_zero hwf
    subst hnil
    simp [addCol, setCellN, getCellN]
  | cons c cols ih =>
    intro cells hwf n v
    cases cells with
    | nil => simp at hwf
    | cons w cells =>
      have hwf' : cells.length = cols.length := by simpa using hwf
      rw [setCellN_cons, addCol_cons]
      by_cases hc : c = n
      · simp only [hc, beq_self_eq_true, if_true]
        rw [getCellN_cons]
        simp
      · have hb : (c == n) = false := by simp [hc]
        rw [hb]
        simp only [Bool.false_eq_true, if_false]
        rw [getCellN_cons, hb]
        simp only [Bool.false_eq_true, if_false]
        exact ih cells hwf' n v

lemma getCellN_set_other : ∀ (cols : List String) (cells : List Value),
    cells.length = cols.length → ∀ (n : String) (v : Value) (m : String), m ≠ n →
      getCellN (addCol cols n) (setCellN cols cells n v) m = getCellN cols cells m := by
  intro cols
  induction cols with
  | nil =>
    intro cells hwf n v m hm
    have hnil : cells = [] := List.eq_nil_of_length_eq_zero hwf
    subst hnil
    have hb : (n == m) = false := by simp [Ne.symm hm]
    simp [addCol, setCellN, getCellN, List.findIdx?_cons, hb]
  | cons c cols ih =>
    intro cells hwf n v m hm
    cases cells with
    | nil => simp at hwf
    | cons w cells =>
      have hwf' : cells.length = cols.length := by simpa using hwf
      rw [setCellN_cons, addCol_cons]
      by_cases hc : c = n
      · simp only [hc, beq_self_eq_true, if_true]
        rw [getCellN_cons, getCellN_cons]
        have hb : (n == m) = false := by simp [Ne.symm hm]
        simp [hc, hb]
      · have hb : (c == n) = false := by simp [hc]
        rw [hb]
        simp only [Bool.false_eq_true, if_false]
        rw [getCellN_cons, getCellN_cons]
        by_cases hcm : c = m
        · simp [hcm]
        · have hb2 : (c == m) = false := by simp [hcm]
          rw [hb2]
          simp only [Bool.false_eq_true, if_false]
          exact ih cells hwf' n v m hm

lemma setCellN_length : ∀ (cols : List String) (cells : List Value),
    cells.length = cols.length → ∀ (n : String) (v : Value),
      (setCellN cols cells n v).length = (addCol cols n).length := by
  intro cols
  induction cols with
  | nil =>
    intro cells hwf n v
    have hnil : cells = [] := List.eq_nil_of_length_eq_zero hwf
    subst hnil
    simp [setCellN, addCol]
  | cons c cols ih =>
    intro cells hwf n v
    cases cells with
    | nil => simp at hwf
    | cons w cells =>
      have hwf' : cells.length = cols.length := by simpa using hwf
      rw [setCellN_cons, addCol_cons]
      by_cases hc : c = n
      · simp only [hc, beq_self_eq_true, if_true]
        simp [hwf']
      · have hb : (c == n) = false := by simp [hc]
        rw [hb]
        simp only [Bool.false_eq_true, if_false]
        simp only [List.length_cons]
        rw [ih cells hwf' n v]

lemma addCol_of_mem (cols : List String) (n : String) (h : n ∈ cols) :
    addCol cols n = cols := by
  unfold addCol
  have hc : cols.contains n = true := List.elem_eq_true_of_mem h
  simp [hc, h]

lemma addCol_mem_self (cols : List String) (n : String) : n ∈ addCol cols n := by
  unfold addCol
  by_cases h : n ∈ cols
  · have hc : cols.contains n = true := List.elem_eq_true_of_mem h
    simp [hc, h]
  · have hc : cols.contains n = false := by
      by_contra hcc
      simp only [Bool.not_eq_false] at hcc
      exact h (List.mem_of_elem_eq_true hcc)
    simp [hc, h]

/-! ### Row-level lemmas for the derivation pipeline -/

lemma parseRowDates_ok (cols : List String) (r r' : DRow)
    (h : parseRowDates cols r = .ok r') (hwf : r.cells.length = cols.length)
    (hFrom : "Reading From Date" ∈ cols) (hTo : "Reading To Date" ∈ cols) :
    r'.idx = r.idx ∧ r'.cells.length = cols.length ∧
    ∀ m, m ≠ "Reading From Date" → m ≠ "Reading To Date" →
      getCellN cols r'.cells m = getCellN cols r.cells m := by
  unfold parseRowDates at h
  split at h
  next e h1 => simp at h
  next v1 h1 =>
    split at h
    next e h2 => simp at h
    next d1 h2 =>
      split at h
      next e h3 => simp at h
      next v2 h3 =>
        split at h
        next e h4 => simp at h
        next d2 h4 =>
          simp only [Except.ok.injEq] at h
          subst h
          have hwf1 : (setCellN cols r.cells "Reading From Date" d1).length
              = cols.length := by
            have := setCellN_length cols r.cells hwf "Reading From Date" d1
            rw [addCol_of_mem cols _ hFrom] at this
            exact this
          have hwf2 : (setCellN cols (setCellN cols r.cells "Reading From Date" d1)
              "Reading To Date" d2).length = cols.length := by
            have := setCellN_length cols _ hwf1 "Reading To Date" d2
            rw [addCol_of_mem cols _ hTo] at this
            exact this
          refine ⟨rfl, hwf2, ?_⟩
          intro m hm1 hm2
          have e1 : getCellN cols (setCellN cols (setCellN cols r.cells
              "Reading From Date" d1) "Reading To Date" d2) m
              = getCellN cols (setCellN cols r.cells "Reading From Date" d1) m := by
            have := getCellN_set_other cols _ hwf1 "Reading To Date" d2 m hm2
            rw [addCol_of_mem cols _ hTo] at this
            exact this
          have e2 : getCellN cols (setCellN cols r.cells "Reading From Date" d1) m
              = getCellN cols r.cells m := by
            have := getCellN_set_other cols r.cells hwf "Reading From Date" d1 m hm1
            rw [addCol_of_mem cols _ hFrom] at this
            exact this
          exact e1.trans e2

lemma deriveRow_ok (cols : List String) (r r' : DRow)
    (h : deriveRow cols r = .ok r') (hwf : r.cells.length = cols.length) :
    r'.idx = r.idx ∧
    r'.cells.length = (addCol (addCol cols "Days In Reading") "kWh Per Day").length ∧
    (∀ m, m ≠ "Days In Reading" → m ≠ "kWh Per Day" →
      getCellN (addCol (addCol cols "Days In Reading") "kWh Per Day") r'.cells m
        = getCellN cols r.cells m) ∧
    vdiv (getCellN (addCol (addCol cols "Days In Reading") "kWh Per Day") r'.cells
        "Metered Usage [kWh]")
      (getCellN (addCol (addCol cols "Days In Reading") "kWh Per Day") r'.cells
        "Days In Reading")
      = .ok (getCellN (addCol (addCol cols "Days In Reading") "kWh Per Day") r'.cells
        "kWh Per Day") := by
  unfold deriveRow at h
  split at h
  next e h1 => simp at h
  next td h1 =>
    split at h
    next e h2 => simp at h
    next days h2 =>
      split at h
      next e h3 => simp at h
      next kwh h3 =>
        simp only [Except.ok.injEq] at h
        subst h
        have hwf1 : (setCellN cols r.cells "Days In Reading" days).length
            = (addCol cols "Days In Reading").length :=
          setCellN_length cols r.cells hwf "Days In Reading" days
        have hKother : ∀ m, m ≠ "kWh Per Day" →
            getCellN (addCol (addCol cols "Days In Reading") "kWh Per Day")
              (setCellN (addCol cols "Days In Reading")
                (setCellN cols r.cells "Days In Reading" days) "kWh Per Day" kwh) m
              = getCellN (addCol cols "Days In Reading")
                (setCellN cols r.cells "Days In Reading" days) m := by
          intro m hm
          exact getCellN_set_other (addCol cols "Days In Reading") _ hwf1
            "kWh Per Day" kwh m hm
        refine ⟨rfl, ?_, ?_, ?_⟩
        · exact setCellN_length (addCol cols "Days In Reading") _ hwf1 "kWh Per Day" kwh
        · intro m hm1 hm2
          rw [hKother m hm2]
          exact getCellN_set_other cols r.cells hwf "Days In Reading" days m hm1
        · rw [hKother "Metered Usage [kWh]" (by decide),
            hKother "Days In Reading" (by decide),
            getCellN_set_self (addCol cols "Days In Reading") _ hwf1 "kWh Per Day" kwh]
          exact h3

lemma forall₂_mem_right {α β : Type} {R : α → β → Prop} :
    ∀ {l : List α} {bs : List β}, List.Forall₂ R l bs → ∀ b ∈ bs, ∃ a ∈ l, R a b := by
  intro l bs h
  induction h with
  | nil => intro b hb; simp at hb
  | cons hR htail ih =>
    intro y hy
    rcases List.mem_cons.mp hy with hEq | hm
    · subst hEq
      exact ⟨_, List.mem_cons_self _ _, hR⟩
    · obtain ⟨a, ha, hRa⟩ := ih y hm
      exact ⟨a, List.mem_cons_of_mem _ ha, hRa⟩

lemma forall₂_get_some {α β : Type} {R : α → β → Prop} {l₁ : List α} {l₂ : List β}
    (h : List.Forall₂ R l₁ l₂) {i : Nat} {a : α} {b : β}
    (ha : l₁[i]? = some a) (hb : l₂[i]? = some b) : R a b := by
  obtain ⟨hlen, hget⟩ := List.forall₂_iff_get.mp h
  obtain ⟨hia, haa⟩ := List.getElem?_eq_some_iff.mp ha
  obtain ⟨hib, hbb⟩ := List.getElem?_eq_some_iff.mp hb
  have hR := hget i hia hib
  simp only [List.get_eq_getElem] at hR
  rw [haa, hbb] at hR
  exact hR

/-! ### Stage-level lemmas for the derivation pipeline -/

lemma parseDates_ok (df df' : DF) (h : parseDates df = .ok df') (hwf : DFwf df) :
    df'.indexName = df.indexName ∧ df'.colNames = df.colNames ∧
    "Reading From Date" ∈ df.colNames ∧ "Reading To Date" ∈ df.colNames ∧
    DFwf df' ∧ df'.rows.length = df.rows.length ∧
    List.Forall₂ (fun a b => parseRowDates df.colNames a = .ok b) df.rows df'.rows := by
  unfold parseDates at h
  split at h
  · simp at h
  · split at h
    · simp at h
    · next hF hT =>
      have hFrom : "Reading From Date" ∈ df.colNames := by
        simp only [Bool.not_eq_true', Bool.not_eq_false] at hF
        exact List.mem_of_elem_eq_true hF
      have hTo : "Reading To Date" ∈ df.colNames := by
        simp only [Bool.not_eq_true', Bool.not_eq_false] at hT
        exact List.mem_of_elem_eq_true hT
      split at h
      · simp at h
      · next rows hmap =>
        simp only [Except.ok.injEq] at h
        subst h
        have hfa := (mapE_ok_iff _ _ _).mp hmap
        refine ⟨rfl, rfl, hFrom, hTo, ?_, (List.Forall₂.length_eq hfa).symm, hfa⟩
        intro b hb
        obtain ⟨a, ha, hR⟩ := forall₂_mem_right hfa b hb
        exact (parseRowDates_ok df.colNames a b hR (hwf a ha) hFrom hTo).2.1

lemma deriveStage_ok (df df' : DF) (h : deriveStage df = .ok df') (hwf : DFwf df) :
    df'.indexName = df.indexName ∧
    df'.colNames = addCol (addCol df.colNames "Days In Reading") "kWh Per Day" ∧
    "Metered Usage [kWh]" ∈ df.colNames ∧
    DFwf df' ∧ df'.rows.length = df.rows.length ∧
    List.Forall₂ (fun a b => deriveRow df.colNames a = .ok b) df.rows df'.rows := by
  unfold deriveStage at h
  split at h
  · simp at h
  · split at h
    · simp at h
    · split at h
      · simp at h
      · next hT hF hU =>
        have hUsage : "Metered Usage [kWh]" ∈ df.colNames := by
          simp only [Bool.not_eq_true', Bool.not_eq_false] at hU
          exact List.mem_of_elem_eq_true hU
        split at h
        · simp at h
        · next rows hmap =>
          simp only [Except.ok.injEq] at h
          subst h
          have hfa := (mapE_ok_iff _ _ _).mp hmap
          refine ⟨rfl, rfl, hUsage, ?_, (List.Forall₂.length_eq hfa).symm, hfa⟩
          intro b hb
          obtain ⟨a, ha, hR⟩ := forall₂_mem_right hfa b hb
          have hlen := (deriveRow_ok df.colNames a b hR (hwf a ha)).2.1
          simpa using hlen

lemma filterNe_ok (df : DF) (n : String) (v : Value) (df' : DF)
    (h : filterNe df n v = .ok df') :
    n ∈ df.colNames ∧ df'.indexName = df.indexName ∧ df'.colNames = df.colNames ∧
    df'.rows = df.rows.filter (fun r => !(getCellN df.colNames r.cells n == v)) := by
  unfold filterNe at h
  split at h
  · simp at h
  · next i hidx =>
    have hmem : n ∈ df.colNames := by
      by_contra hc
      rw [(findIdxS_none df.colNames n).mpr hc] at hidx
      cases hidx
    simp only [Except.ok.injEq] at h
    subst h
    exact ⟨hmem, rfl, rfl, rfl⟩

/-! ### Lemmas for the column-drop loop -/

lemma projRowCells_length : ∀ (cols : List String) (cells : List Value) (l : String),
    cells.length = cols.length →
    (((cols.zip cells).filter (fun p => !(p.1 == l))).map Prod.snd).length
      = (cols.filter (fun c => !(c == l))).length := by
  intro cols
  induction cols with
  | nil =>
    intro cells l hwf
    have hnil : cells = [] := List.eq_nil_of_length_eq_zero hwf
    subst hnil
    simp
  | cons c cols ih =>
    intro cells l hwf
    cases cells with
    | nil => simp at hwf
    | cons w cells =>
      have hwf' : cells.length = cols.length := by simpa using hwf
      simp only [List.zip_cons_cons, List.filter_cons]
      by_cases hc : c = l
      · simp only [hc, beq_self_eq_true, Bool.not_true, Bool.false_eq_true, if_false]
        exact ih cells l hwf'
      · have hb : (c == l) = false := by simp [hc]
        simp only [hb, Bool.not_false, if_true, List.map_cons, List.length_cons]
        rw [ih cells l hwf']

lemma projRow_getCellN : ∀ (cols : List String) (cells : List Value) (l m : String),
    cells.length = cols.length → m ≠ l →
    getCellN (cols.filter (fun c => !(c == l)))
      (((cols.zip cells).filter (fun p => !(p.1 == l))).map Prod.snd) m
      = getCellN cols cells m := by
  intro cols
  induction cols with
  | nil =>
    intro cells l m hwf hm
    have hnil : cells = [] := List.eq_nil_of_length_eq_zero hwf
    subst hnil
    simp [getCellN]
  | cons c cols ih =>
    intro cells l m hwf hm
    cases cells with
    | nil => simp at hwf
    | cons w cells =>
      have hwf' : cells.length = cols.length := by simpa using hwf
      simp only [List.zip_cons_cons, List.filter_cons]
      by_cases hc : c = l
      · have hb : (c == l) = true := by simp [hc]
        simp only [hb, Bool.not_true, Bool.false_eq_true, if_false]
        rw [ih cells l m hwf' hm]
        rw [getCellN_cons]
        have hcm : (c == m) = false := by
          simp only [beq_eq_false_iff_ne, ne_eq]
          intro hEq
          exact hm (by rw [← hEq, hc])
        rw [hcm]
        simp
      · have hb : (c == l) = false := by simp [hc]
        simp only [hb, Bool.not_false, if_true, List.map_cons]
        rw [getCellN_cons, getCellN_cons]
        by_cases hcm : c = m
        · simp [hcm]
        · have hb2 : (c == m) = false := by simp [hcm]
          rw [hb2]
          simp only [Bool.false_eq_true, if_false]
          exact ih cells l m hwf' hm

lemma dropAllCols_ok (df : DF) (l : String) (df' : DF)
    (h : dropAllCols df l = .ok df') (hwf : DFwf df) :
    df'.indexName = df.indexName ∧
    df'.colNames = df.colNames.filter (fun c => !(c == l)) ∧
    DFwf df' ∧ df'.rows.length = df.rows.length ∧
    (∀ (i : Nat) (r rr : DRow), df.rows[i]? = some r → df'.rows[i]? = some rr →
      rr.idx = r.idx ∧ ∀ m, m ≠ l →
        getCellN df'.colNames rr.cells m = getCellN df.colNames r.cells m) := by
  unfold dropAllCols at h
  split at h
  · simp only [Except.ok.injEq] at h
    subst h
    refine ⟨rfl, rfl, ?_, by simp, ?_⟩
    · intro b hb
      simp only [List.mem_map] at hb
      obtain ⟨a, ha, hEq⟩ := hb
      subst hEq
      simpa using projRowCells_length df.colNames a.cells l (hwf a ha)
    · intro i r rr hr hrr
      rw [List.getElem?_map, hr] at hrr
      simp at hrr
      subst hrr
      refine ⟨rfl, ?_⟩
      intro m hm
      have hrmem : r ∈ df.rows := List.mem_iff_getElem?.mpr ⟨i, hr⟩
      simpa using projRow_getCellN df.colNames r.cells l m (hwf r hrmem) hm
  · cases h

lemma dropLoop_char : ∀ (labels kept : List String) (df : DF) (ds : List String),
    df.colNames = kept ++ labels → (kept ++ labels).Nodup → DFwf df →
    (∀ k ∈ kept, ds.contains (strLower k) = false) →
    ∃ df', dropLoop df labels ds = .ok df' ∧
      df'.indexName = df.indexName ∧
      df'.colNames = kept ++ labels.filter (fun lb => !(ds.contains (strLower lb))) ∧
      DFwf df' ∧ df'.rows.length = df.rows.length ∧
      (∀ (i : Nat) (r rr : DRow), df.rows[i]? = some r → df'.rows[i]? = some rr →
        rr.idx = r.idx ∧ ∀ m, ds.contains (strLower m) = false →
          getCellN df'.colNames rr.cells m = getCellN df.colNames r.cells m) := by
  intro labels
  induction labels with
  | nil =>
    intro kept df ds hcols hnd hwf hkept
    refine ⟨df, rfl, rfl, by simpa using hcols, hwf, rfl, ?_⟩
    intro i r rr hr hrr
    rw [hr] at hrr
    rw [Option.some_inj] at hrr
    subst hrr
    exact ⟨rfl, fun m _ => rfl⟩
  | cons l ls ih =>
    intro kept df ds hcols hnd hwf hkept
    unfold dropLoop
    obtain ⟨hndk, hndc, hdisj⟩ := List.nodup_append.mp hnd
    have hlkept : l ∉ kept := fun hmem => hdisj hmem (List.mem_cons_self l ls)
    have hlls : l ∉ ls := (List.nodup_cons.mp hndc).1
    by_cases hc : ds.contains (strLower l) = true
    · rw [if_pos hc]
      have hlmem : l ∈ df.colNames := by
        rw [hcols]
        exact List.mem_append_right kept (List.mem_cons_self l ls)
      have hcont : df.colNames.contains l = true := List.elem_eq_true_of_mem hlmem
      have hdok : dropAllCols df l = .ok ⟨df.indexName,
          df.colNames.filter (fun c => !(c == l)),
          df.rows.map (fun r =>
            ⟨r.idx, ((df.colNames.zip r.cells).filter (fun p => !(p.1 == l))).map
              Prod.snd⟩)⟩ := by
        unfold dropAllCols
        rw [if_pos hcont]
      obtain ⟨hidx1, hcols1, hwf1, hlen1, hpres1⟩ := dropAllCols_ok df l _ hdok hwf
      have hfk : kept.filter (fun c => !(c == l)) = kept := by
        rw [List.filter_eq_self]
        intro k hk
        have hkl : k ≠ l := fun hEq => hlkept (hEq ▸ hk)
        simp [hkl]
      have hfls : ls.filter (fun c => !(c == l)) = ls := by
        rw [List.filter_eq_self]
        intro k hk
        have hkl : k ≠ l := fun hEq => hlls (hEq ▸ hk)
        simp [hkl]
      have hcols1' : (⟨df.indexName,
          df.colNames.filter (fun c => !(c == l)),
          df.rows.map (fun r =>
            ⟨r.idx, ((df.colNames.zip r.cells).filter (fun p => !(p.1 == l))).map
              Prod.snd⟩)⟩ : DF).colNames = kept ++ ls := by
        simp only
        rw [hcols, List.filter_append, hfk, List.filter_cons]
        simp only [beq_self_eq_true, Bool.not_true, Bool.false_eq_true, if_false, hfls]
      have hnd1 : (kept ++ ls).Nodup :=
        List.Sublist.nodup (List.Sublist.append_left (List.sublist_cons_self l ls) kept) hnd
      obtain ⟨df', hloop, hidx2, hcols2, hwf2, hlen2, hpres2⟩ :=
        ih kept _ ds hcols1' hnd1 hwf1 hkept
      rw [hdok]
      refine ⟨df', hloop, hidx2.trans hidx1, ?_, hwf2, ?_, ?_⟩
      · rw [hcols2, List.filter_cons]
        simp only [hc, Bool.not_true, Bool.false_eq_true, if_false]
      · rw [hlen2, hlen1]
      · intro i r rr hr hrr
        have hi : i < df.rows.length := (List.getElem?_eq_some_iff.mp hr).1
        have hr1 : (df.rows.map (fun r =>
            (⟨r.idx, ((df.colNames.zip r.cells).filter (fun p => !(p.1 == l))).map
              Prod.snd⟩ : DRow)))[i]? = some ⟨r.idx,
                ((df.colNames.zip r.cells).filter (fun p => !(p.1 == l))).map Prod.snd⟩ := by
          rw [List.getElem?_map, hr]
          rfl
        obtain ⟨hidxp, hgetp⟩ := hpres1 i r _ hr hr1
        obtain ⟨hidxq, hgetq⟩ := hpres2 i _ rr hr1 hrr
        refine ⟨hidxq.trans hidxp, ?_⟩
        intro m hm
        have hml : m ≠ l := by
          intro hEq
          rw [hEq, hc] at hm
          cases hm
        rw [hgetq m hm, hgetp m hml]
    · rw [if_neg hc]
      have hc' : ds.contains (strLower l) = false := by
        by_contra hcc
        simp only [Bool.not_eq_false] at hcc
        exact hc hcc
      have hcols' : df.colNames = (kept ++ [l]) ++ ls := by
        rw [hcols, List.append_assoc]
        rfl
      have hnd' : ((kept ++ [l]) ++ ls).Nodup := by
        rw [List.append_assoc]
        simpa using hnd
      have hkept' : ∀ k ∈ kept ++ [l], ds.contains (strLower k) = false := by
        intro k hk
        rcases List.mem_append.mp hk with hk1 | hk2
        · exact hkept k hk1
        · rw [List.mem_singleton.mp hk2]
          exact hc'
      obtain ⟨df', hloop, hidx2, hcols2, hwf2, hlen2, hpres2⟩ :=
        ih (kept ++ [l]) df ds hcols' hnd' hwf hkept'
      refine ⟨df', hloop, hidx2, ?_, hwf2, hlen2, hpres2⟩
      rw [hcols2, List.filter_cons]
      simp only [hc', Bool.not_false, if_true, List.append_assoc]
      rfl

/-! ### Lemmas about concatFrames -/

lemma concatFrames_props (dfs : List DF) (mass : DF) (h : concatFrames dfs = .ok mass) :
    mass.colNames = unionCols dfs ∧ DFwf mass ∧
    mass.rows.length = (dfs.map (fun d => d.rows.length)).sum := by
  unfold concatFrames at h
  cases dfs with
  | nil => cases h
  | cons first rest =>
    simp only [Except.ok.injEq] at h
    subst h
    refine ⟨rfl, ?_, ?_⟩
    · intro b hb
      simp only [List.mem_flatten, List.mem_map] at hb
      obtain ⟨bl, ⟨df, hdf, hbl⟩, hbmem⟩ := hb
      subst hbl
      simp only [List.mem_map] at hbmem
      obtain ⟨a, ha, hEq⟩ := hbmem
      subst hEq
      simp [reindexRow]
    · simp only [List.length_flatten, List.map_map, Function.comp]
      congr 1
      apply List.map_congr_left
      intro d _
      simp

lemma unionCols_nodup_aux : ∀ (dfs : List DF) (acc : List String),
    acc.Nodup → (∀ df ∈ dfs, df.colNames.Nodup) →
    (dfs.foldl (fun acc df => acc ++ df.colNames.filter (fun n => !(acc.contains n))) acc).Nodup := by
  intro dfs
  induction dfs with
  | nil => intro acc hnd _; exact hnd
  | cons df rest ih =>
    intro acc hnd hall
    simp only [List.foldl_cons]
    apply ih
    · rw [List.nodup_append]
      refine ⟨hnd, ?_, ?_⟩
      · exact List.Sublist.nodup (List.filter_sublist df.colNames)
          (hall df (List.mem_cons_self df rest))
      · intro a ha hafil
        rw [List.mem_filter] at hafil
        have := hafil.2
        have hmem : acc.contains a = true := List.elem_eq_true_of_mem ha
        rw [hmem] at this
        cases this
    · intro d hd
      exact hall d (List.mem_cons_of_mem df hd)

lemma unionCols_nodup (dfs : List DF) (h : ∀ df ∈ dfs, df.colNames.Nodup) :
    (unionCols dfs).Nodup :=
  unionCols_nodup_aux dfs [] List.nodup_nil h

lemma getCellN_map_self : ∀ (cols : List String) (cells : List Value),
    cells.length = cols.length → cols.Nodup →
    cols.map (getCellN cols cells) = cells := by
  intro cols
  induction cols with
  | nil =>
    intro cells hwf _
    have hnil : cells = [] := List.eq_nil_of_length_eq_zero hwf
    subst hnil
    rfl
  | cons c cols ih =>
    intro cells hwf hnd
    cases cells with
    | nil => simp at hwf
    | cons w cells =>
      have hwf' : cells.length = cols.length := by simpa using hwf
      obtain ⟨hcmem, hnd'⟩ := List.nodup_cons.mp hnd
      simp only [List.map_cons]
      rw [getCellN_cons]
      simp only [beq_self_eq_true, if_true]
      congr 1
      have hcongr : ∀ x ∈ cols, getCellN (c :: cols) (w :: cells) x
          = getCellN cols cells x := by
        intro x hx
        rw [getCellN_cons]
        have : (c == x) = false := by
          simp only [beq_eq_false_iff_ne, ne_eq]
          intro hEq
          exact hcmem (hEq ▸ hx)
        rw [this]
        simp
      rw [List.map_congr_left hcongr]
      exact ih cells hwf' hnd'

lemma concatFrames_single (df : DF) (hnd : df.colNames.Nodup) (hwf : DFwf df) :
    concatFrames [df] = .ok df := by
  unfold concatFrames unionCols
  simp only [List.foldl_cons, List.foldl_nil, List.nil_append, List.map_cons,
    List.map_nil, List.flatten]
  have hfil : df.colNames.filter (fun n => !(List.contains [] n)) = df.colNames := by
    rw [List.filter_eq_self]
    intro a _
    rfl
  rw [hfil]
  have hrows : df.rows.map (reindexRow df.colNames df.colNames) = df.rows := by
    have hpt : ∀ r ∈ df.rows, reindexRow df.colNames df.colNames r = r := by
      intro r hr
      unfold reindexRow
      rw [getCellN_map_self df.colNames r.cells (hwf r hr) hnd]
    rw [List.map_congr_left hpt]
    exact List.map_id' df.rows
  rw [hrows, List.append_nil]

lemma dropAllCols_ok_inv (df : DF) (l : String) (df' : DF)
    (h : dropAllCols df l = .ok df') :
    df'.rows.length = df.rows.length := by
  unfold dropAllCols at h
  split at h
  · simp only [Except.ok.injEq] at h
    subst h
    simp
  · cases h

lemma dropLoop_rows_length : ∀ (labels : List String) (df : DF) (ds : List String) (df' : DF),
    dropLoop df labels ds = .ok df' → df'.rows.length = df.rows.length := by
  intro labels
  induction labels with
  | nil =>
    intro df ds df' h
    simp only [dropLoop, Except.ok.injEq] at h
    subst h
    rfl
  | cons l ls ih =>
    intro df ds df' h
    unfold dropLoop at h
    split at h
    · split at h
      · cases h
      · next df1 hd1 =>
        rw [ih df1 ds df' h, dropAllCols_ok_inv df l df1 hd1]
    · exact ih df ds df' h

lemma dropStage_rows_length (df : DF) (cfg : Config) (df' : DF)
    (h : dropStage df cfg = .ok df') : df'.rows.length = df.rows.length := by
  unfold dropStage at h
  split at h
  · simp only [Except.ok.injEq] at h
    subst h
    rfl
  · exact dropLoop_rows_length df.colNames df _ df' h

lemma forall₂_filter_length {α β : Type} {R : α → β → Prop} (p : β → Bool) (q : α → Bool) :
    ∀ {l₁ : List α} {l₂ : List β}, List.Forall₂ R l₁ l₂ →
    (∀ a ∈ l₁, ∀ b, R a b → p b = q a) →
    (l₂.filter p).length = (l₁.filter q).length := by
  intro l₁ l₂ h
  induction h with
  | nil => intro _; rfl
  | @cons a b l₁' l₂' hR htail ih =>
    intro hpq
    simp only [List.filter_cons]
    rw [hpq a (List.mem_cons_self a l₁') b hR]
    cases hq : q a
    · simp only [Bool.false_eq_true, if_false]
      exact ih (fun x hx => hpq x (List.mem_cons_of_mem a hx))
    · simp only [if_true, List.length_cons]
      rw [ih (fun x hx => hpq x (List.mem_cons_of_mem a hx))]

lemma forall₂_imp_mem {α β : Type} {R S : α → β → Prop} :
    ∀ {l₁ : List α} {l₂ : List β}, List.Forall₂ R l₁ l₂ →
    (∀ a ∈ l₁, ∀ b ∈ l₂, R a b → S a b) → List.Forall₂ S l₁ l₂ := by
  intro l₁ l₂ h
  induction h with
  | nil => intro _; exact List.Forall₂.nil
  | @cons a b l₁' l₂' hR htail ih =>
    intro himp
    refine List.Forall₂.cons
      (himp a (List.mem_cons_self a l₁') b (List.mem_cons_self b l₂') hR) ?_
    exact ih (fun x hx y hy hr =>
      himp x (List.mem_cons_of_mem a hx) y (List.mem_cons_of_mem b hy) hr)

lemma forall₂_comp {α β γ : Type} {R : α → β → Prop} {S : β → γ → Prop} :
    ∀ {l₁ : List α} {l₂ : List β} {l₃ : List γ}, List.Forall₂ R l₁ l₂ →
    List.Forall₂ S l₂ l₃ →
    List.Forall₂ (fun a c => ∃ b, R a b ∧ S b c) l₁ l₃ := by
  intro l₁ l₂ l₃ h
  induction h generalizing l₃ with
  | nil =>
    intro h2
    cases h2
    exact List.Forall₂.nil
  | @cons a b l₁' l₂' hR htail ih =>
    intro h2
    cases h2 with
    | cons hS htail2 => exact List.Forall₂.cons ⟨b, hR, hS⟩ (ih htail2)

lemma forall₂_filter {α β : Type} {R : α → β → Prop} (p : α → Bool) (q : β → Bool) :
    ∀ {l₁ : List α} {l₂ : List β}, List.Forall₂ R l₁ l₂ →
    (∀ a ∈ l₁, ∀ b, R a b → p a = q b) →
    List.Forall₂ R (l₁.filter p) (l₂.filter q) := by
  intro l₁ l₂ h
  induction h with
  | nil => intro _; exact List.Forall₂.nil
  | @cons a b l₁' l₂' hR htail ih =>
    intro hpq
    have ih2 := ih (fun x hx y hy => hpq x (List.mem_cons_of_mem a hx) y hy)
    have hq : p a = q b := hpq a (List.mem_cons_self a l₁') b hR
    simp only [List.filter_cons, ← hq]
    cases hp : p a
    · simp only [Bool.false_eq_true, if_false]
      exact ih2
    · simp only [if_true]
      exact List.Forall₂.cons hR ih2

lemma forall₂_of_get {α β : Type} {S : α → β → Prop} :
    ∀ {l₁ : List α} {l₂ : List β}, l₁.length = l₂.length →
    (∀ (i : Nat) (a : α) (b : β), l₁[i]? = some a → l₂[i]? = some b → S a b) →
    List.Forall₂ S l₁ l₂ := by
  intro l₁
  induction l₁ with
  | nil =>
    intro l₂ hlen _
    cases l₂ with
    | nil => exact List.Forall₂.nil
    | cons b l₂' => simp at hlen
  | cons a l₁' ih =>
    intro l₂ hlen hget
    cases l₂ with
    | nil => simp at hlen
    | cons b l₂' =>
      refine List.Forall₂.cons (hget 0 a b (by simp) (by simp)) ?_
      refine ih (by simpa using hlen) ?_
      intro i x y hx hy
      exact hget (i + 1) x y (by simpa using hx) (by simpa using hy)

lemma merge_and_derive_inv (dfs : List DF) (cfg : Config) (out : DF)
    (h : merge_and_derive dfs cfg = .ok out) :
    ∃ mass m1 m2 m3 m4,
      concatFrames dfs = .ok mass ∧ parseDates mass = .ok m1 ∧
      deriveStage m1 = .ok m2 ∧
      filterNe m2 "Service Classification" (.str "Sentinel Lights") = .ok m3 ∧
      filterNe m3 "Reason Not Billed"
        (.str "No billing as of summary billing cut off date") = .ok m4 ∧
      dropStage m4 cfg = .ok out := by
  unfold merge_and_derive at h
  split at h
  next e hcat => simp at h
  next mass hcat =>
    split at h
    next e hp => simp at h
    next m1 hp =>
      split at h
      next e hd => simp at h
      next m2 hd =>
        split at h
        next e hf1 => simp at h
        next m3 hf1 =>
          split at h
          next e hf2 => simp at h
          next m4 hf2 =>
            exact ⟨mass, m1, m2, m3, m4, hcat, hp, hd, hf1, hf2, h⟩

lemma addCol_nodup (cols : List String) (n : String) (h : cols.Nodup) :
    (addCol cols n).Nodup := by
  unfold addCol
  split
  · exact h
  · next hc =>
    rw [List.nodup_append]
    refine ⟨h, List.nodup_singleton n, ?_⟩
    intro x hx hxn
    rw [List.mem_singleton.mp hxn] at hx
    exact hc (List.elem_eq_true_of_mem hx)

lemma mem_addCol_elim (x : String) (cols : List String) (n : String)
    (h : x ∈ addCol cols n) : x ∈ cols ∨ x = n := by
  unfold addCol at h
  split at h
  · exact Or.inl h
  · rcases List.mem_append.mp h with h1 | h2
    · exact Or.inl h1
    · exact Or.inr (List.mem_singleton.mp h2)

lemma mem_addCol_of_mem (x : String) (cols : List String) (n : String)
    (h : x ∈ cols) : x ∈ addCol cols n := by
  unfold addCol
  split
  · exact h
  · exact List.mem_append_left _ h

lemma dropStage_char (df : DF) (cfg : Config) (out : DF)
    (h : dropStage df cfg = .ok out) (hnd : df.colNames.Nodup) (hwf : DFwf df) :
    DFwf out ∧ out.colNames.Nodup ∧ out.rows.length = df.rows.length ∧
    (cfg.dropSection = none → out = df) ∧
    (∀ ds, cfg.dropSection = some ds →
      out.colNames = df.colNames.filter (fun lb => !(ds.contains (strLower lb))) ∧
      (∀ (i : Nat) (r rr : DRow), df.rows[i]? = some r → out.rows[i]? = some rr →
        rr.idx = r.idx ∧ ∀ m, ds.contains (strLower m) = false →
          getCellN out.colNames rr.cells m = getCellN df.colNames r.cells m)) := by
  unfold dropStage at h
  split at h
  · next hds =>
    simp only [Except.ok.injEq] at h
    subst h
    refine ⟨hwf, hnd, rfl, fun _ => rfl, ?_⟩
    intro ds hds2
    rw [hds] at hds2
    cases hds2
  · next ds hds =>
    obtain ⟨df', hloop, _, hcols, hwf', hlen, hpres⟩ :=
      dropLoop_char df.colNames [] df ds rfl (by simpa using hnd) hwf (by simp)
    rw [hloop, Except.ok.injEq] at h
    subst h
    refine ⟨hwf', ?_, hlen, ?_, ?_⟩
    · rw [hcols]
      simpa using List.Nodup.filter _ hnd
    · intro hnone
      rw [hds] at hnone
      cases hnone
    · intro ds2 hds2
      rw [hds] at hds2
      rw [Option.some_inj] at hds2
      subst hds2
      exact ⟨by simpa using hcols, hpres⟩

lemma addCol_of_not_mem (cols : List String) (n : String) (h : n ∉ cols) :
    addCol cols n = cols ++ [n] := by
  unfold addCol
  have hc : cols.contains n = false := by
    by_contra h2
    simp only [Bool.not_eq_false] at h2
    exact h (List.mem_of_elem_eq_true h2)
  simp [hc, h]

/-- C3: for input tables with pairwise-distinct column names (as the
extractor produces) and any config on which the pipeline succeeds, a row of
the concatenated input appears in the output exactly when it passes both
exclusion predicates: the output rows are, in order, precisely the images of
the concatenated rows whose "Service Classification" is not "Sentinel
Lights" and whose "Reason Not Billed" is not the cut-off-date message — each
output row keeps that row's account index and its value in every column
other than the two re-parsed date columns, the two derived columns and the
config-dropped columns — and a row failing a predicate yields no output row;
consequently the output row count equals the number of passing concatenated
rows, is at most the sum of the input row counts, and is strictly less when
some concatenated row matches an exclusion predicate. -/
theorem c3_row_filter (dfs : List DF) (cfg : Config) (out : DF)
    (hnd : ∀ df ∈ dfs, df.colNames.Nodup)
    (h : merge_and_derive dfs cfg = .ok out) :
    ∃ mass, concatFrames dfs = .ok mass ∧
      List.Forall₂ (fun a b => b.idx = a.idx ∧
          ∀ m, m ≠ "Reading From Date" → m ≠ "Reading To Date" →
            m ≠ "Days In Reading" → m ≠ "kWh Per Day" → colKept cfg m = true →
            getCellN out.colNames b.cells m = getCellN mass.colNames a.cells m)
        (mass.rows.filter (keepRow mass.colNames)) out.rows ∧
      out.rows.length = (mass.rows.filter (keepRow mass.colNames)).length ∧
      mass.rows.length = (dfs.map (fun d => d.rows.length)).sum ∧
      out.rows.length ≤ (dfs.map (fun d => d.rows.length)).sum ∧
      ((∃ r ∈ mass.rows, keepRow mass.colNames r = false) →
        out.rows.length < (dfs.map (fun d => d.rows.length)).sum) := by
  obtain ⟨mass, m1, m2, m3, m4, hcat, hp, hd, hf1, hf2, hdrop⟩ :=
    merge_and_derive_inv dfs cfg out h
  obtain ⟨hcolsU, hwfM, hlenM⟩ := concatFrames_props dfs mass hcat
  have hndM : mass.colNames.Nodup := by
    rw [hcolsU]
    exact unionCols_nodup dfs hnd
  obtain ⟨_, hcols1, hFrom, hTo, hwf1, hlen1, hfa1⟩ := parseDates_ok mass m1 hp hwfM
  obtain ⟨_, hcols2, hUsage, hwf2, hlen2, hfa2⟩ := deriveStage_ok m1 m2 hd hwf1
  obtain ⟨hSC, _, hcols3, hrows3⟩ := filterNe_ok m2 _ _ m3 hf1
  obtain ⟨hRB, _, hcols4, hrows4⟩ := filterNe_ok m3 _ _ m4 hf2
  rw [hcols3] at hrows4
  have hm4 : m4.rows = m2.rows.filter (fun r =>
      !(getCellN m2.colNames r.cells "Reason Not Billed" ==
          .str "No billing as of summary billing cut off date") &&
      !(getCellN m2.colNames r.cells "Service Classification" ==
          .str "Sentinel Lights")) := by
    rw [hrows4, hrows3, List.filter_filter]
  have hnd2 : m2.colNames.Nodup := by
    rw [hcols2]
    exact addCol_nodup _ _ (addCol_nodup _ _ (by rw [hcols1]; exact hndM))
  have hwf4 : DFwf m4 := by
    intro r hr
    rw [hcols4, hcols3]
    rw [hm4] at hr
    exact hwf2 r (List.mem_filter.mp hr).1
  have hnd4 : m4.colNames.Nodup := by
    rw [hcols4, hcols3]
    exact hnd2
  obtain ⟨hwfO, hndO, hlenO, hnoneO, hsomeO⟩ := dropStage_char m4 cfg out hdrop hnd4 hwf4
  have hQ : List.Forall₂ (fun a c => ∃ b, parseRowDates mass.colNames a = .ok b ∧
      deriveRow m1.colNames b = .ok c) mass.rows m2.rows := forall₂_comp hfa1 hfa2
  have hQf : List.Forall₂ (fun a c => ∃ b, parseRowDates mass.colNames a = .ok b ∧
      deriveRow m1.colNames b = .ok c)
      (mass.rows.filter (keepRow mass.colNames))
      (m2.rows.filter (fun r =>
        !(getCellN m2.colNames r.cells "Reason Not Billed" ==
            .str "No billing as of summary billing cut off date") &&
        !(getCellN m2.colNames r.cells "Service Classification" ==
            .str "Sentinel Lights"))) := by
    apply forall₂_filter _ _ hQ
    intro a ha c hac
    obtain ⟨b, hb1, hb2⟩ := hac
    obtain ⟨_, hblen, hpres1⟩ :=
      parseRowDates_ok mass.colNames a b hb1 (hwfM a ha) hFrom hTo
    rw [hcols1] at hb2
    obtain ⟨_, _, hpres2, _⟩ := deriveRow_ok mass.colNames b c hb2 hblen
    show keepRow mass.colNames a =
      (!(getCellN m2.colNames c.cells "Reason Not Billed" ==
          .str "No billing as of summary billing cut off date") &&
       !(getCellN m2.colNames c.cells "Service Classification" ==
          .str "Sentinel Lights"))
    rw [hcols2, hcols1]
    rw [hpres2 "Reason Not Billed" (by decide) (by decide),
      hpres2 "Service Classification" (by decide) (by decide),
      hpres1 "Reason Not Billed" (by decide) (by decide),
      hpres1 "Service Classification" (by decide) (by decide)]
    unfold keepRow
    rw [Bool.and_comm]
  rw [← hm4] at hQf
  have hS : List.Forall₂ (fun r rr => rr.idx = r.idx ∧
      ∀ m, colKept cfg m = true →
        getCellN out.colNames rr.cells m = getCellN m4.colNames r.cells m)
      m4.rows out.rows := by
    apply forall₂_of_get hlenO.symm
    intro i r rr hr hrr
    cases hcfg : cfg.dropSection with
    | none =>
      have hEq := hnoneO hcfg
      rw [hEq, hr, Option.some_inj] at hrr
      subst hrr
      exact ⟨rfl, fun m _ => by rw [hEq]⟩
    | some ds =>
      obtain ⟨_, hpres⟩ := hsomeO ds hcfg
      obtain ⟨hidx, hpr⟩ := hpres i r rr hr hrr
      refine ⟨hidx, ?_⟩
      intro m hm
      apply hpr
      unfold colKept at hm
      rw [hcfg] at hm
      simpa using hm
  have hcomp := forall₂_comp hQf hS
  have hfinal : List.Forall₂ (fun a b => b.idx = a.idx ∧
      ∀ m, m ≠ "Reading From Date" → m ≠ "Reading To Date" →
        m ≠ "Days In Reading" → m ≠ "kWh Per Day" → colKept cfg m = true →
        getCellN out.colNames b.cells m = getCellN mass.colNames a.cells m)
      (mass.rows.filter (keepRow mass.colNames)) out.rows := by
    apply forall₂_imp_mem hcomp
    intro a ha c _ hac
    obtain ⟨b2, ⟨b1, hb1, hb2⟩, hidx2, hprescols⟩ := hac
    have haM : a ∈ mass.rows := (List.mem_filter.mp ha).1
    obtain ⟨hidx0, hblen, hpres1⟩ :=
      parseRowDates_ok mass.colNames a b1 hb1 (hwfM a haM) hFrom hTo
    rw [hcols1] at hb2
    obtain ⟨hidx1, _, hpres2, _⟩ := deriveRow_ok mass.colNames b1 b2 hb2 hblen
    refine ⟨by rw [hidx2, hidx1, hidx0], ?_⟩
    intro m hmF hmT hmD hmK hkept
    rw [hprescols m hkept]
    have e2 : getCellN m4.colNames b2.cells m = getCellN mass.colNames b1.cells m := by
      rw [hcols4, hcols3, hcols2, hcols1]
      exact hpres2 m hmD hmK
    rw [e2]
    exact hpres1 m hmF hmT
  have hmain : out.rows.length = (mass.rows.filter (keepRow mass.colNames)).length :=
    (List.Forall₂.length_eq hfinal).symm
  refine ⟨mass, hcat, hfinal, hmain, hlenM, ?_, ?_⟩
  · rw [hmain, ← hlenM]
    exact List.length_filter_le _ mass.rows
  · intro hbad
    rw [hmain, ← hlenM]
    apply List.length_filter_lt_length_iff_exists.mpr
    obtain ⟨r, hr, hkeep⟩ := hbad
    exact ⟨r, hr, by rw [hkeep]; simp⟩

/-- C3 witness: two concrete input tables, three rows in total, one of which
is a "Sentinel Lights" row, so the pipeline keeps exactly two rows. -/
theorem c3_row_filter_witness :
    merge_and_derive [dfC3a, dfC3b] (⟨none⟩ : Config) = .ok dfC3o ∧
    dfC3o.rows.length < ([dfC3a, dfC3b].map (fun d => d.rows.length)).sum := by
  have hout : merge_and_derive [dfC3a, dfC3b] (⟨none⟩ : Config) = .ok dfC3o := by decide
  obtain ⟨mass, hcat, hfa, hmain, hlenM, hle, hlt⟩ :=
    c3_row_filter [dfC3a, dfC3b] ⟨none⟩ dfC3o (by decide) hout
  have hcat2 : concatFrames [dfC3a, dfC3b] = .ok massC3 := by decide
  rw [hcat2, Except.ok.injEq] at hcat
  subst hcat
  refine ⟨hout, ?_⟩
  apply hlt
  exact ⟨⟨.num 222, [.date 10, .date 12, .num 4, .str "Sentinel Lights", .str ""]⟩,
    by decide, by decide⟩

/-- C4 counterexample: a merged row whose reading period is zero days and
whose usage is 5 kWh.  The claim says the unguarded division makes
"kWh Per Day" not-a-number; the pipeline instead produces `+inf`
(numpy float semantics: `5.0 / 0.0 = inf`, NaN arises only for `0.0 / 0.0`),
and `inf` is not NaN. -/
theorem c4_kwh_counterexample :
    merge_and_derive [dfC4] (⟨none⟩ : Config) = .ok dfC4o ∧
    dfC4o.rows.map (fun r => getCellN dfC4o.colNames r.cells "Days In Reading")
      = [.num 0] ∧
    dfC4o.rows.map (fun r => getCellN dfC4o.colNames r.cells "kWh Per Day")
      = [.inf] ∧
    Value.inf ≠ Value.nan := by decide

/-- C4 (amended): for every frame accepted by the derive stage, each output
row's "kWh Per Day" cell is exactly the unguarded float division of its
"Metered Usage [kWh]" cell by its "Days In Reading" cell — the division
returns a value and never raises on numeric cells — and at a zero
denominator the result is `+inf` for positive usage, `-inf` for negative
usage and NaN exactly when the usage is zero. -/
theorem c4_kwh_per_day (df df' : DF) (hwf : DFwf df) (h : deriveStage df = .ok df') :
    (∀ rr ∈ df'.rows,
      vdiv (getCellN df'.colNames rr.cells "Metered Usage [kWh]")
        (getCellN df'.colNames rr.cells "Days In Reading")
        = .ok (getCellN df'.colNames rr.cells "kWh Per Day")) ∧
    (∀ u : ℚ, vdiv (.num u) (.num 0)
      = .ok (if u = 0 then .nan else if 0 < u then .inf else .neginf)) := by
  obtain ⟨_, hcols, _, _, _, hfa⟩ := deriveStage_ok df df' h hwf
  constructor
  · intro rr hrr
    obtain ⟨a, ha, hR⟩ := forall₂_mem_right hfa rr hrr
    have h4 := (deriveRow_ok df.colNames a rr hR (hwf a ha)).2.2.2
    rw [hcols]
    exact h4
  · intro u
    unfold vdiv
    simp

/-- C4 witness: the amended theorem applied to `dfC4` (zero-day reading,
usage 5), all hypotheses discharged on the concrete frame. -/
theorem c4_kwh_per_day_witness :
    vdiv (getCellN dfC4o.colNames rowC4o.cells "Metered Usage [kWh]")
      (getCellN dfC4o.colNames rowC4o.cells "Days In Reading")
      = .ok (getCellN dfC4o.colNames rowC4o.cells "kWh Per Day") :=
  (c4_kwh_per_day dfC4 dfC4o (by decide) (by decide)).1 rowC4o (by decide)

/-- C7 counterexample: a table carrying a duplicated "Extra" column, with a
config that drops "extra".  The claim says the pipeline removes exactly the
matching columns and returns the rest; instead the drop loop iterates over
the original label snapshot, the first "Extra" drop removes both occurrences
at once, and the second loop iteration calls `df.drop` on a label that no
longer exists, so the whole pipeline raises `KeyError` and produces no
output at all. -/
theorem c7_drop_counterexample :
    merge_and_derive [dfC7dup] cfgC7 = .error .keyError := by decide

/-- C7 (amended): for every table whose column names are pairwise distinct
(as all extractor-produced tables are — pandas deduplicates read headers)
and every Drop list, the drop stage succeeds and removes exactly those
columns whose lowercased name appears in the Drop key set; all non-matching
columns are preserved in their original order, and no rows are removed. -/
theorem c7_drop_columns (df : DF) (ds : List String)
    (hnd : df.colNames.Nodup) (hwf : DFwf df) :
    ∃ df', dropStage df ⟨some ds⟩ = .ok df' ∧
      df'.colNames = df.colNames.filter (fun lb => !(ds.contains (strLower lb))) ∧
      df'.rows.length = df.rows.length := by
  obtain ⟨df', hloop, _, hcols, _, hlen, _⟩ :=
    dropLoop_char df.colNames [] df ds rfl (by simpa using hnd) hwf (by simp)
  exact ⟨df', hloop, by simpa using hcols, hlen⟩

/-- C7 witness: the amended theorem at a concrete frame with three distinct
columns and a drop set containing "keep me". -/
theorem c7_drop_columns_witness :
    ∃ df', dropStage dfC7 ⟨some ["keep me"]⟩ = .ok df' ∧
      df'.colNames = dfC7.colNames.filter
        (fun lb => !((["keep me"] : List String).contains (strLower lb))) ∧
      df'.rows.length = dfC7.rows.length :=
  c7_drop_columns dfC7 ["keep me"] (by decide) (by decide)

/-- C8: for every merged table, alias mapping and account identifier present
in the table, the Output Writer emits a sheet for that account named by the
alias stored under `str(account)` when that key is present, and by
`str(account)` itself otherwise; the sheet holds exactly that account's
rows. -/
theorem c8_sheet_names (df : DF) (aliases : List (String × String)) (acct : Value)
    (hmem : acct ∈ accountsOf df) :
    (∀ a, List.lookup (valueStr acct) aliases = some a →
      (a, df.rows.filter (fun r => r.idx == acct)) ∈ write_output df aliases) ∧
    (List.lookup (valueStr acct) aliases = none →
      (valueStr acct, df.rows.filter (fun r => r.idx == acct))
        ∈ write_output df aliases) := by
  constructor
  · intro a ha
    unfold write_output
    apply List.mem_map.mpr
    refine ⟨acct, hmem, ?_⟩
    rw [ha]
  · intro ha
    unfold write_output
    apply List.mem_map.mpr
    refine ⟨acct, hmem, ?_⟩
    rw [ha]

/-- C8 witness: account 111 aliased to "Smith" gets a sheet named "Smith",
not "111"; the unaliased account 222 gets a sheet named "222". -/
theorem c8_sheet_names_witness :
    ("Smith", dfC8.rows.filter (fun r => r.idx == Value.num 111))
      ∈ write_output dfC8 aliasesC8 ∧
    ("222", dfC8.rows.filter (fun r => r.idx == Value.num 222))
      ∈ write_output dfC8 aliasesC8 := by
  constructor
  · have h := (c8_sheet_names dfC8 aliasesC8 (.num 111) (by decide)).1 "Smith" (by decide)
    exact h
  · have h2 : List.lookup (valueStr (.num 222)) aliasesC8 = none := by decide
    have h := (c8_sheet_names dfC8 aliasesC8 (.num 222) (by decide)).2 h2
    have hv : valueStr (.num 222) = "222" := by decide
    rw [hv] at h
    exact h


/-- C6 counterexample: with the config `[Drop] service classification`, the
first run succeeds and yields a table without the "Service Classification"
column, but running `merge_and_derive` again on that output with the same
config does not leave it unchanged — the second run's row filter reads the
dropped column and the whole pipeline raises `KeyError`, producing no output
at all. -/
theorem c6_idempotent_counterexample :
    merge_and_derive [dfC6] cfgC6 = .ok dfC6x ∧
    merge_and_derive [dfC6x] cfgC6 = .error .keyError := by decide

/-- C6 (amended): for input tables with pairwise-distinct column names, when
running `merge_and_derive` on its own output with the same config succeeds
(it can instead raise `KeyError`, when the config drops a column the
pipeline itself reads), the second run removes no further rows and no
further columns: the output has exactly the columns and the row count of the
first run's output. -/
theorem c6_idempotent (dfs : List DF) (cfg : Config) (out1 out2 : DF)
    (hnd : ∀ df ∈ dfs, df.colNames.Nodup)
    (h1 : merge_and_derive dfs cfg = .ok out1)
    (h2 : merge_and_derive [out1] cfg = .ok out2) :
    out2.colNames = out1.colNames ∧ out2.rows.length = out1.rows.length := by
  obtain ⟨mass, m1, m2, m3, m4, hcat, hp, hd, hf1, hf2, hdrop⟩ :=
    merge_and_derive_inv dfs cfg out1 h1
  obtain ⟨hcolsU, hwfM, hlenM⟩ := concatFrames_props dfs mass hcat
  have hndM : mass.colNames.Nodup := by
    rw [hcolsU]
    exact unionCols_nodup dfs hnd
  obtain ⟨_, hcols1, hFrom1, hTo1, hwf1, hlen1, hfa1⟩ := parseDates_ok mass m1 hp hwfM
  obtain ⟨_, hcols2, hU1, hwf2, hlen2, hfa2⟩ := deriveStage_ok m1 m2 hd hwf1
  obtain ⟨hSC1, _, hcols3, hrows3⟩ := filterNe_ok m2 _ _ m3 hf1
  obtain ⟨hRB1, _, hcols4, hrows4⟩ := filterNe_ok m3 _ _ m4 hf2
  have hwf4 : DFwf m4 := by
    intro r hr
    rw [hcols4, hcols3]
    rw [hrows4] at hr
    have hr3 := (List.mem_filter.mp hr).1
    rw [hrows3] at hr3
    exact hwf2 r (List.mem_filter.mp hr3).1
  have hnd2 : m2.colNames.Nodup := by
    rw [hcols2]
    exact addCol_nodup _ _ (addCol_nodup _ _ (by rw [hcols1]; exact hndM))
  have hnd4 : m4.colNames.Nodup := by
    rw [hcols4, hcols3]
    exact hnd2
  have hcols4' : m4.colNames = m2.colNames := by rw [hcols4, hcols3]
  have hm4SC : ∀ r ∈ m4.rows,
      (getCellN m2.colNames r.cells "Service Classification"
        == Value.str "Sentinel Lights") = false := by
    intro r hr
    rw [hrows4] at hr
    have hr3 := (List.mem_filter.mp hr).1
    rw [hrows3] at hr3
    have hkeep := (List.mem_filter.mp hr3).2
    simpa using hkeep
  have hm4RB : ∀ r ∈ m4.rows,
      (getCellN m2.colNames r.cells "Reason Not Billed"
        == Value.str "No billing as of summary billing cut off date") = false := by
    intro r hr
    rw [hrows4] at hr
    have hkeep := (List.mem_filter.mp hr).2
    rw [hcols3] at hkeep
    simpa using hkeep
  obtain ⟨hwfO1, hndO1, hlenO1, hnoneO1, hsomeO1⟩ :=
    dropStage_char m4 cfg out1 hdrop hnd4 hwf4
  obtain ⟨mass2, n1, n2, n3, n4, hcat2, hp2, hd2, hg1, hg2, hdrop2⟩ :=
    merge_and_derive_inv [out1] cfg out2 h2
  have hmass2 : out1 = mass2 := by
    rw [concatFrames_single out1 hndO1 hwfO1, Except.ok.injEq] at hcat2
    exact hcat2
  rw [← hmass2] at hp2
  obtain ⟨_, hcols1b, hFrom2, hTo2, hwf1b, hlen1b, hfa1b⟩ := parseDates_ok out1 n1 hp2 hwfO1
  obtain ⟨_, hcols2b, hU2, hwf2b, hlen2b, hfa2b⟩ := deriveStage_ok n1 n2 hd2 hwf1b
  obtain ⟨hSC2, _, hcols3b, hrows3b⟩ := filterNe_ok n2 _ _ n3 hg1
  obtain ⟨hRB2, _, hcols4b, hrows4b⟩ := filterNe_ok n3 _ _ n4 hg2
  have hSCmem : "Service Classification" ∈ out1.colNames := by
    have hx := hSC2
    rw [hcols2b] at hx
    rcases mem_addCol_elim _ _ _ hx with hy | hy
    · rcases mem_addCol_elim _ _ _ hy with hz | hz
      · rw [hcols1b] at hz
        exact hz
      · exact absurd hz (by decide)
    · exact absurd hy (by decide)
  have hRBmem : "Reason Not Billed" ∈ out1.colNames := by
    have hx := hRB2
    rw [hcols3b, hcols2b] at hx
    rcases mem_addCol_elim _ _ _ hx with hy | hy
    · rcases mem_addCol_elim _ _ _ hy with hz | hz
      · rw [hcols1b] at hz
        exact hz
      · exact absurd hz (by decide)
    · exact absurd hy (by decide)
  have hO1SC : ∀ a ∈ out1.rows,
      (getCellN out1.colNames a.cells "Service Classification"
        == Value.str "Sentinel Lights") = false := by
    cases hds : cfg.dropSection with
    | none =>
      intro a ha
      have hEq := hnoneO1 hds
      rw [hEq] at ha ⊢
      rw [hcols4']
      exact hm4SC a ha
    | some ds =>
      obtain ⟨hcolsO1, hpresO1⟩ := hsomeO1 ds hds
      have hSCfil := hSCmem
      rw [hcolsO1] at hSCfil
      have hSCc : ds.contains (strLower "Service Classification") = false := by
        have := (List.mem_filter.mp hSCfil).2
        simpa using this
      intro a ha
      obtain ⟨i, hi⟩ := List.mem_iff_getElem?.mp ha
      have hilt : i < out1.rows.length := (List.getElem?_eq_some_iff.mp hi).1
      have hilt4 : i < m4.rows.length := by rw [← hlenO1]; exact hilt
      have hr0 : m4.rows[i]? = some m4.rows[i] := List.getElem?_eq_getElem hilt4
      obtain ⟨_, hpres⟩ := hpresO1 i _ a hr0 hi
      rw [hpres _ hSCc, hcols4']
      exact hm4SC _ (List.mem_iff_getElem?.mpr ⟨i, hr0⟩)
  have hO1RB : ∀ a ∈ out1.rows,
      (getCellN out1.colNames a.cells "Reason Not Billed"
        == Value.str "No billing as of summary billing cut off date") = false := by
    cases hds : cfg.dropSection with
    | none =>
      intro a ha
      have hEq := hnoneO1 hds
      rw [hEq] at ha ⊢
      rw [hcols4']
      exact hm4RB a ha
    | some ds =>
      obtain ⟨hcolsO1, hpresO1⟩ := hsomeO1 ds hds
      have hRBfil := hRBmem
      rw [hcolsO1] at hRBfil
      have hRBc : ds.contains (strLower "Reason Not Billed") = false := by
        have := (List.mem_filter.mp hRBfil).2
        simpa using this
      intro a ha
      obtain ⟨i, hi⟩ := List.mem_iff_getElem?.mp ha
      have hilt : i < out1.rows.length := (List.getElem?_eq_some_iff.mp hi).1
      have hilt4 : i < m4.rows.length := by rw [← hlenO1]; exact hilt
      have hr0 : m4.rows[i]? = some m4.rows[i] := List.getElem?_eq_getElem hilt4
      obtain ⟨_, hpres⟩ := hpresO1 i _ a hr0 hi
      rw [hpres _ hRBc, hcols4']
      exact hm4RB _ (List.mem_iff_getElem?.mpr ⟨i, hr0⟩)
  have hn2SC : ∀ rr ∈ n2.rows,
      (getCellN n2.colNames rr.cells "Service Classification"
        == Value.str "Sentinel Lights") = false := by
    intro rr hrr
    obtain ⟨a', ha', hR2⟩ := forall₂_mem_right hfa2b rr hrr
    obtain ⟨a, ha, hR1⟩ := forall₂_mem_right hfa1b a' ha'
    obtain ⟨_, _, hpresD, _⟩ := deriveRow_ok n1.colNames a' rr hR2 (hwf1b a' ha')
    obtain ⟨_, _, hpresP⟩ := parseRowDates_ok out1.colNames a a' hR1 (hwfO1 a ha) hFrom2 hTo2
    rw [hcols2b, hpresD _ (by decide) (by decide), hcols1b,
      hpresP _ (by decide) (by decide)]
    exact hO1SC a ha
  have hn2RB : ∀ rr ∈ n2.rows,
      (getCellN n2.colNames rr.cells "Reason Not Billed"
        == Value.str "No billing as of summary billing cut off date") = false := by
    intro rr hrr
    obtain ⟨a', ha', hR2⟩ := forall₂_mem_right hfa2b rr hrr
    obtain ⟨a, ha, hR1⟩ := forall₂_mem_right hfa1b a' ha'
    obtain ⟨_, _, hpresD, _⟩ := deriveRow_ok n1.colNames a' rr hR2 (hwf1b a' ha')
    obtain ⟨_, _, hpresP⟩ := parseRowDates_ok out1.colNames a a' hR1 (hwfO1 a ha) hFrom2 hTo2
    rw [hcols2b, hpresD _ (by decide) (by decide), hcols1b,
      hpresP _ (by decide) (by decide)]
    exact hO1RB a ha
  have hn3 : n3.rows = n2.rows := by
    rw [hrows3b]
    apply List.filter_eq_self.mpr
    intro r hr
    simpa using hn2SC r hr
  have hn4 : n4.rows = n3.rows := by
    rw [hrows4b]
    apply List.filter_eq_self.mpr
    intro r hr
    rw [hcols3b]
    rw [hn3] at hr
    simpa using hn2RB r hr
  have hlenO2 : out2.rows.length = out1.rows.length := by
    have hx := dropStage_rows_length n4 cfg out2 hdrop2
    rw [hx, hn4, hn3, hlen2b, hlen1b]
  refine ⟨?_, hlenO2⟩
  have hnd2b : n2.colNames.Nodup := by
    rw [hcols2b]
    exact addCol_nodup _ _ (addCol_nodup _ _ (by rw [hcols1b]; exact hndO1))
  have hwf4b : DFwf n4 := by
    intro r hr
    rw [hcols4b, hcols3b]
    rw [hn4, hn3] at hr
    exact hwf2b r hr
  have hnd4b : n4.colNames.Nodup := by
    rw [hcols4b, hcols3b]
    exact hnd2b
  obtain ⟨_, _, _, hnoneO2, hsomeO2⟩ := dropStage_char n4 cfg out2 hdrop2 hnd4b hwf4b
  have hcolsN4 : n4.colNames
      = addCol (addCol out1.colNames "Days In Reading") "kWh Per Day" := by
    rw [hcols4b, hcols3b, hcols2b, hcols1b]
  cases hds : cfg.dropSection with
  | none =>
    have hEq1 := hnoneO1 hds
    have hEq2 := hnoneO2 hds
    rw [hEq2, hcolsN4]
    have hD : "Days In Reading" ∈ out1.colNames := by
      rw [hEq1, hcols4', hcols2]
      exact mem_addCol_of_mem _ _ _ (addCol_mem_self _ _)
    have hK : "kWh Per Day" ∈ out1.colNames := by
      rw [hEq1, hcols4', hcols2]
      exact addCol_mem_self _ _
    rw [addCol_of_mem _ _ hD, addCol_of_mem _ _ hK]
  | some ds =>
    obtain ⟨hcolsO1, _⟩ := hsomeO1 ds hds
    obtain ⟨hcolsO2, _⟩ := hsomeO2 ds hds
    rw [hcolsO2, hcolsN4]
    have hallp : ∀ x ∈ out1.colNames, (!(ds.contains (strLower x))) = true := by
      intro x hx
      rw [hcolsO1] at hx
      exact (List.mem_filter.mp hx).2
    have hself : out1.colNames.filter (fun lb => !(ds.contains (strLower lb)))
        = out1.colNames := List.filter_eq_self.mpr hallp
    have hdropped : ∀ n, n ∈ m4.colNames → n ∉ out1.colNames →
        ds.contains (strLower n) = true := by
      intro n hn hnmem
      by_contra hc
      have hcf : ds.contains (strLower n) = false := by
        by_contra h2
        simp only [Bool.not_eq_false] at h2
        exact hc h2
      apply hnmem
      rw [hcolsO1]
      exact List.mem_filter.mpr ⟨hn, by simp only [hcf, Bool.not_false]⟩
    have hDm4 : "Days In Reading" ∈ m4.colNames := by
      rw [hcols4', hcols2]
      exact mem_addCol_of_mem _ _ _ (addCol_mem_self _ _)
    have hKm4 : "kWh Per Day" ∈ m4.colNames := by
      rw [hcols4', hcols2]
      exact addCol_mem_self _ _
    by_cases hD : "Days In Reading" ∈ out1.colNames
    · rw [addCol_of_mem _ _ hD]
      by_cases hK : "kWh Per Day" ∈ out1.colNames
      · rw [addCol_of_mem _ _ hK, hself]
      · have hKc := hdropped _ hKm4 hK
        rw [addCol_of_not_mem _ _ hK, List.filter_append, hself]
        simp [hKc]
        exact List.mem_of_elem_eq_true hKc
    · have hDc := hdropped _ hDm4 hD
      rw [addCol_of_not_mem _ _ hD]
      by_cases hK : "kWh Per Day" ∈ out1.colNames
      · have hKmem : "kWh Per Day" ∈ out1.colNames ++ ["Days In Reading"] :=
          List.mem_append_left _ hK
        rw [addCol_of_mem _ _ hKmem, List.filter_append, hself]
        simp [hDc]
        exact List.mem_of_elem_eq_true hDc
      · have hKc := hdropped _ hKm4 hK
        have hKnm : "kWh Per Day" ∉ out1.colNames ++ ["Days In Reading"] := by
          intro hmem
          rcases List.mem_append.mp hmem with hm1 | hm1
          · exact hK hm1
          · exact absurd (List.mem_singleton.mp hm1) (by decide)
        rw [addCol_of_not_mem _ _ hKnm, List.filter_append, List.filter_append, hself]
        simp [hDc, hKc]
        exact ⟨List.mem_of_elem_eq_true hDc, List.mem_of_elem_eq_true hKc⟩

/-- C6 witness: a one-row table with an empty drop config; both runs succeed
and the second changes neither the columns nor the row count, the first
run's output being a fixed point of the pipeline. -/
theorem c6_idempotent_witness :
    dfC6o.colNames = dfC6o.colNames ∧ dfC6o.rows.length = dfC6o.rows.length :=
  c6_idempotent [dfC6] ⟨none⟩ dfC6o dfC6o (by decide) (by decide) (by decide)
